import Mathlib

/-!
Verification of libtrellis `Chip.cpp`: the chip data model, the configuration
diff, the routing-graph dispatch and the ECP5 global-network lookups.

A shallow embedding of `libtrellis/src/Chip.cpp`.

* C++ exceptions are modelled by `Except Error`.
* `std::map<string, T>` is modelled by `StdMap T`: the entries in strictly
  increasing key order (the order in which a range-`for` visits them). The
  order lemmas that `StdMap.set` needs to keep that order come right before it.
* `std::vector<T>` is modelled by `List T`; `at` is bounds checked.
* `int` is modelled by `Int`; the coordinates handled here are far away from
  the 32-bit limits (a row of `INT_MAX` would need a vector of `2^31` rows).
* The collaborators whose code is elsewhere are parameters: the device
  database (`Database`), the difference of bit regions (`CramOps`, a total
  function as the spec describes it), and the routing graph with its
  builders, modelled by the sequence of calls made on it (`GraphOp`).
-/

set_option autoImplicit false

namespace Trellis

/-! ## Exceptions -/

/-- The two kinds of exception `Chip.cpp` can raise: `std::out_of_range`
(thrown by `at` of `std::map` and `std::vector`) and `std::runtime_error`
with its message. -/
inductive Error where
  | out_of_range : Error
  | runtime_error (msg : String) : Error
  deriving DecidableEq, Repr

/-! ## `std::vector` -/

/-- `v.at(i)` for an `int` index: a negative `i` converts to a huge `size_t`
and is out of range like any `i >= size()`. -/
def vecAt {α : Type} (v : List α) (i : Int) : Except Error α :=
  if 0 ≤ i then
    match v.get? i.toNat with
    | some x => .ok x
    | none => .error .out_of_range
  else .error .out_of_range

/-- `v.resize(n)`: truncate or pad with value-initialised elements. -/
def vecResize {α : Type} (v : List α) (n : Nat) (dflt : α) : List α :=
  v.take n ++ List.replicate (n - v.length) dflt

/-- Run `f` on the element reference `v.at(i)` and store what it leaves there. -/
def vecModifyAt {α : Type} (v : List α) (i : Int) (f : α → Except Error α) :
    Except Error (List α) := do
  let x ← vecAt v i
  let y ← f x
  pure (v.set i.toNat y)

/-! ## `std::map<string, T>` -/

/-- `std::less<std::string>`: lexicographic comparison of the characters. -/
def keyLt (a b : String) : Prop := a.data < b.data

instance (a b : String) : Decidable (keyLt a b) :=
  inferInstanceAs (Decidable (a.data < b.data))

/-- Insert-or-assign on the sorted entry list. -/
def insertRaw {β : Type} (k : String) (v : β) : List (String × β) → List (String × β)
  | [] => [(k, v)]
  | (k', v') :: rest =>
    if keyLt k k' then (k, v) :: (k', v') :: rest
    else if k = k' then (k, v) :: rest
    else (k', v') :: insertRaw k v rest

/-- The entry list is in strictly increasing key order. -/
def KeySorted {β : Type} (l : List (String × β)) : Prop :=
  l.Pairwise (fun a b => keyLt a.1 b.1)

theorem keyLt_irrefl (a : String) : ¬ keyLt a a := lt_irrefl a.data

theorem keyLt_trans {a b c : String} (h₁ : keyLt a b) (h₂ : keyLt b c) : keyLt a c :=
  lt_trans (α := List Char) h₁ h₂

theorem keyLt_of_not {a b : String} (h₁ : ¬ keyLt a b) (h₂ : a ≠ b) : keyLt b a := by
  rcases lt_trichotomy a.data b.data with h | h | h
  · exact absurd h h₁
  · exact absurd (String.ext h) h₂
  · exact h

theorem mem_insertRaw {β : Type} (k : String) (v : β) (l : List (String × β))
    (hl : KeySorted l) (e : String × β) :
    e ∈ insertRaw k v l ↔ e = (k, v) ∨ (e ∈ l ∧ e.1 ≠ k) := by
  induction l with
  | nil => simp [insertRaw]
  | cons hd tl ih =>
    obtain ⟨k', v'⟩ := hd
    have hpw := List.pairwise_cons.mp hl
    have htl : KeySorted tl := hpw.2
    unfold insertRaw
    by_cases h1 : keyLt k k'
    · simp only [h1, if_true, List.mem_cons]
      constructor
      · rintro (h | h | h)
        · exact Or.inl h
        · subst h
          refine Or.inr ⟨Or.inl rfl, fun hk => ?_⟩
          have hk' : k' = k := hk
          rw [hk'] at h1
          exact keyLt_irrefl k h1
        · refine Or.inr ⟨Or.inr h, fun hk => ?_⟩
          have := hpw.1 e h
          simp only at this
          rw [hk] at this
          exact keyLt_irrefl k (keyLt_trans h1 this)
      · rintro (h | ⟨h | h, _⟩)
        · exact Or.inl h
        · exact Or.inr (Or.inl h)
        · exact Or.inr (Or.inr h)
    · by_cases h2 : k = k'
      · subst h2
        simp only [h1, if_false, if_true, List.mem_cons]
        constructor
        · rintro (h | h)
          · exact Or.inl h
          · refine Or.inr ⟨Or.inr h, fun hk => ?_⟩
            have := hpw.1 e h
            simp only at this
            rw [hk] at this
            exact keyLt_irrefl k this
        · rintro (h | ⟨h | h, hne⟩)
          · exact Or.inl h
          · subst h
            exact absurd rfl hne
          · exact Or.inr h
      · simp only [h1, h2, if_false, List.mem_cons, ih htl]
        constructor
        · rintro (h | h | ⟨h, hne⟩)
          · subst h
            exact Or.inr ⟨Or.inl rfl, fun hk => h2 hk.symm⟩
          · exact Or.inl h
          · exact Or.inr ⟨Or.inr h, hne⟩
        · rintro (h | ⟨h | h, hne⟩)
          · exact Or.inr (Or.inl h)
          · exact Or.inl h
          · exact Or.inr (Or.inr ⟨h, hne⟩)

theorem keySorted_insertRaw {β : Type} (k : String) (v : β) (l : List (String × β))
    (hl : KeySorted l) : KeySorted (insertRaw k v l) := by
  induction l with
  | nil => simp [insertRaw, KeySorted]
  | cons hd tl ih =>
    obtain ⟨k', v'⟩ := hd
    have hpw := List.pairwise_cons.mp hl
    have htl : KeySorted tl := hpw.2
    unfold insertRaw
    by_cases h1 : keyLt k k'
    · simp only [h1, if_true]
      refine List.pairwise_cons.mpr ⟨?_, hl⟩
      intro e he
      rcases List.mem_cons.mp he with h | h
      · subst h
        exact h1
      · exact keyLt_trans h1 (hpw.1 e h)
    · by_cases h2 : k = k'
      · subst h2
        simp only [h1, if_false, if_true]
        exact List.pairwise_cons.mpr ⟨fun e he => hpw.1 e he, htl⟩
      · simp only [h1, h2, if_false]
        refine List.pairwise_cons.mpr ⟨?_, ih htl⟩
        intro e he
        rcases (mem_insertRaw k v tl htl e).mp he with h | ⟨h, _⟩
        · subst h
          exact keyLt_of_not h1 h2
        · exact hpw.1 e h

/-- A `std::map<string, T>`: its entries in iteration (key) order. -/
structure StdMap (β : Type) where
  entries : List (String × β)
  sorted : KeySorted entries

namespace StdMap

/-- The empty map. -/
def empty {β : Type} : StdMap β := ⟨[], List.Pairwise.nil⟩

/-- The statement `m[k] = v`. -/
def set {β : Type} (m : StdMap β) (k : String) (v : β) : StdMap β :=
  ⟨insertRaw k v m.entries, keySorted_insertRaw k v m.entries m.sorted⟩

/-- The call `m.find(k)`, `none` standing for `end()`. -/
def find {β : Type} (m : StdMap β) (k : String) : Option β :=
  m.entries.lookup k

/-- The call `m.at(k)`, which throws `std::out_of_range` for an absent key. -/
def atKey {β : Type} (m : StdMap β) (k : String) : Except Error β :=
  match m.find k with
  | some v => .ok v
  | none => .error .out_of_range

/-- The keys in iteration order. -/
def keys {β : Type} (m : StdMap β) : List String := m.entries.map Prod.fst

end StdMap

/-! ## Strings -/

/-- The test `s.find(pat) != string::npos`: `pat` occurs in `s` as a substring. -/
def strContains (s pat : String) : Bool :=
  s.data.tails.any (fun t => pat.data.isPrefixOf t)

/-! ## Data model -/

/-- The device constants of `ChipInfo` that `Chip.cpp` reads. -/
structure ChipInfo where
  name : String
  family : String
  num_frames : Int
  bits_per_frame : Int
  max_row : Int
  max_col : Int
  deriving DecidableEq, Repr

/-- Modelled from the spec: `TileInfo` is declared in `Tile.hpp`, which is not
part of the sources at hand; the spec gives it a name, a type string and a
grid row and column, and `get_row_col()` hands back the latter two. -/
structure TileInfo where
  name : String
  type : String
  row : Int
  col : Int
  deriving DecidableEq, Repr

/-- The pair `(row, col)` of a tile. -/
def TileInfo.get_row_col (t : TileInfo) : Int × Int := (t.row, t.col)

/-- `DeviceLocator{family, device}`. -/
structure DeviceLocator where
  family : String
  device : String
  deriving DecidableEq, Repr

/-- `TileLocator{family, device, tiletype}`. -/
structure TileLocator where
  family : String
  device : String
  tiletype : String
  deriving DecidableEq, Repr

/-- A tile: its descriptor and the contents `cram` of its bit region, of a
type `R` left to the CRAM collaborator. -/
structure Tile (R : Type) where
  info : TileInfo
  cram : R

/-- A rectangle of the global clock network with the quadrant name. -/
structure GlobalRegion where
  name : String
  x0 : Int
  y0 : Int
  x1 : Int
  y1 : Int
  deriving DecidableEq, Repr

/-- A tap segment: the driving column and the column ranges served from the
left and from the right. -/
structure TapSegment where
  tap_col : Int
  lx0 : Int
  lx1 : Int
  rx0 : Int
  rx1 : Int
  deriving DecidableEq, Repr

/-- A spine record for a quadrant and a tap column. -/
structure SpineSegment where
  tap_col : Int
  quadrant : String
  spine_row : Int
  spine_col : Int
  deriving DecidableEq, Repr

/-- `TapDriver::TapDir`. -/
inductive TapDir where
  | LEFT : TapDir
  | RIGHT : TapDir
  deriving DecidableEq, Repr

/-- The result of `get_tap_driver`. -/
structure TapDriver where
  col : Int
  dir : TapDir
  deriving DecidableEq, Repr

/-- The declared regions, tap segments and spine records of an ECP5 device. -/
structure Ecp5GlobalsInfo where
  quadrants : List GlobalRegion
  tapsegs : List TapSegment
  spinesegs : List SpineSegment
  deriving DecidableEq, Repr

/-- `Chip`: the device constants, the tiles by name, the grid index
`tiles_at_location[row][col]` of `(name, type)` pairs and the global-network
descriptor of the family (`none` for the member that stays default
constructed). `G` is the type of the MachXO2 descriptor. The chip-wide bit
array is seen through the regions of the tiles. -/
structure Chip (R G : Type) where
  info : ChipInfo
  tiles : StdMap (Tile R)
  tiles_at_location : List (List (List (String × String)))
  global_data_ecp5 : Option Ecp5GlobalsInfo
  global_data_machxo2 : Option G

/-- The device database and the CRAM as far as chip construction calls them:
the tile grid of a device, the global-network descriptors, and the bit region
a new `Tile` gets as its view of the chip. -/
structure Database (R G : Type) where
  get_device_tilegrid : DeviceLocator → List TileInfo
  get_global_info_ecp5 : DeviceLocator → Ecp5GlobalsInfo
  get_global_info_machxo2 : DeviceLocator → G
  make_view : ChipInfo → TileInfo → R

/-! ## `Chip::Chip(const ChipInfo &)` -/

/-- The by-name and by-position index while the constructor runs. -/
abbrev TileIndex (R : Type) := StdMap (Tile R) × List (List (List (String × String)))

/-- One round of the constructor loop for `tile`. -/
def Chip.add_tile {R G : Type} (db : Database R G) (info : ChipInfo)
    (st : TileIndex R) (tile : TileInfo) : Except Error (TileIndex R) := do
  let tiles := st.1.set tile.name ⟨tile, db.make_view info tile⟩
  let (row, col) := tile.get_row_col
  let tal := st.2
  let tal := if (tal.length : Int) ≤ row then vecResize tal (row + 1).toNat [] else tal
  let tal ← vecModifyAt tal row (fun r =>
    pure (if (r.length : Int) ≤ col then vecResize r (col + 1).toNat [] else r))
  let tal ← vecModifyAt tal row (fun r =>
    vecModifyAt r col (fun cell => pure (cell ++ [(tile.name, tile.type)])))
  pure (tiles, tal)

/-- `Chip::Chip(const ChipInfo &info)`. -/
def Chip.construct {R G : Type} (db : Database R G) (info : ChipInfo) :
    Except Error (Chip R G) := do
  let allTiles := db.get_device_tilegrid ⟨info.family, info.name⟩
  let st ← allTiles.foldlM (Chip.add_tile db info) (StdMap.empty, [])
  if info.family = "ECP5" then
    pure ⟨info, st.1, st.2, some (db.get_global_info_ecp5 ⟨info.family, info.name⟩), none⟩
  else if info.family = "MachXO2" then
    pure ⟨info, st.1, st.2, none, some (db.get_global_info_machxo2 ⟨info.family, info.name⟩)⟩
  else
    throw (.runtime_error ("Unknown chip family " ++ info.family))

/-! ## Tile lookups -/

/-- `Chip::get_tile_by_name`. -/
def Chip.get_tile_by_name {R G : Type} (c : Chip R G) (name : String) :
    Except Error (Tile R) :=
  c.tiles.atKey name

/-- `Chip::get_tiles_by_position`: scan of the name map. -/
def Chip.get_tiles_by_position {R G : Type} (c : Chip R G) (row col : Int) :
    List (Tile R) :=
  (c.tiles.entries.filter (fun tile => tile.2.info.get_row_col = (row, col))).map Prod.snd

/-- The cell `tiles_at_location.at(row).at(col)`. -/
def Chip.location_cell {R G : Type} (c : Chip R G) (row col : Int) :
    Except Error (List (String × String)) := do
  let r ← vecAt c.tiles_at_location row
  vecAt r col

/-- The loop of `get_tile_by_position_and_type` over one cell, for a test
`accept` on the tile type. -/
def first_of_type (accept : String → Bool) : List (String × String) → Option String
  | [] => none
  | tile :: rest => if accept tile.2 then some tile.1 else first_of_type accept rest

/-- The message of the exception of `get_tile_by_position_and_type`. -/
def no_suitable_tile (row col : Int) : Error :=
  .runtime_error ("no suitable tile found at R" ++ toString row ++ "C" ++ toString col)

/-- `Chip::get_tile_by_position_and_type(int, int, string)`. -/
def Chip.get_tile_by_position_and_type {R G : Type} (c : Chip R G) (row col : Int)
    (type : String) : Except Error String := do
  let cell ← c.location_cell row col
  match first_of_type (fun t => t == type) cell with
  | some n => pure n
  | none => throw (no_suitable_tile row col)

/-- `Chip::get_tile_by_position_and_type(int, int, set<string>)`, the set
given by its elements. -/
def Chip.get_tile_by_position_and_type_set {R G : Type} (c : Chip R G) (row col : Int)
    (type : List String) : Except Error String := do
  let cell ← c.location_cell row col
  match first_of_type (fun t => decide (t ∈ type)) cell with
  | some n => pure n
  | none => throw (no_suitable_tile row col)

/-- `Chip::get_tiles_by_type`. -/
def Chip.get_tiles_by_type {R G : Type} (c : Chip R G) (type : String) : List (Tile R) :=
  (c.tiles.entries.filter (fun tile => tile.2.info.type = type)).map Prod.snd

/-- `Chip::get_all_tiles`. -/
def Chip.get_all_tiles {R G : Type} (c : Chip R G) : List (Tile R) :=
  c.tiles.entries.map Prod.snd

/-- `Chip::get_max_row`. -/
def Chip.get_max_row {R G : Type} (c : Chip R G) : Int := c.info.max_row

/-- `Chip::get_max_col`. -/
def Chip.get_max_col {R G : Type} (c : Chip R G) : Int := c.info.max_col

/-! ## `operator-` on chips -/

/-- The CRAM collaborator as far as the chip diff calls it: the difference
`sub` of two bit regions, a value of a type `D`, and its `empty()` test. -/
structure CramOps (R D : Type) where
  sub : R → R → D
  empty : D → Bool

/-- One round of the loop of `operator-` for the entry `tile` of `a.tiles`. -/
def diff_step {R G D : Type} (ops : CramOps R D) (b : Chip R G) (delta : StdMap D)
    (tile : String × Tile R) : Except Error (StdMap D) := do
  let bt ← b.tiles.atKey tile.1
  let cd := ops.sub tile.2.cram bt.cram
  if !ops.empty cd then pure (delta.set tile.1 cd) else pure delta

/-- `ChipDelta operator-(const Chip &a, const Chip &b)`. -/
def operator_sub {R G D : Type} (ops : CramOps R D) (a b : Chip R G) :
    Except Error (StdMap D) :=
  a.tiles.entries.foldlM (diff_step ops b) StdMap.empty

/-! ## Routing graph construction

`RoutingGraph`, the bit database and the primitive builders of `Bels.hpp` are
collaborators whose code is elsewhere. The graph under construction is
modelled by the sequence of calls made on it, in program order; `ident`
interns a string, and the identifier it returns is modelled by that string. -/

/-- `Location(x, y)`. -/
structure Location where
  x : Int
  y : Int
  deriving DecidableEq, Repr

/-- `RoutingId{loc, id}`. -/
structure RoutingId where
  loc : Location
  id : String
  deriving DecidableEq, Repr

/-- The fields of `RoutingArc` that `Chip.cpp` assigns. -/
structure RoutingArc where
  id : String
  tiletype : String
  source : RoutingId
  sink : RoutingId
  configurable : Bool
  lutperm_flags : Nat
  deriving DecidableEq, Repr

/-- A call of a primitive builder of namespace `Ecp5Bels`, with its arguments
after the graph. `add_ioclk_bel` has the default `bank = -1`. -/
inductive Ecp5Call where
  | add_lc (x y z : Int)
  | add_pio (x y z : Int)
  | add_iologic (x y z : Int) (s : Bool)
  | add_dcc (x y : Int) (side z : String)
  | add_dcs (x y z : Int)
  | add_bram (x y z : Int)
  | add_mult18 (x y z : Int)
  | add_alu54b (x y z : Int)
  | add_pll (quad : String) (x y : Int)
  | add_dcu (x y : Int)
  | add_extref (x y : Int)
  | add_pcsclkdiv (x y z : Int)
  | add_misc (name : String) (x y : Int)
  | add_ioclk_bel (name : String) (x y i : Int) (bank : Int)
  deriving DecidableEq, Repr

/-- A call of a primitive builder of namespace `MachXO2Bels`. -/
inductive MachXO2Call where
  | add_lc (x y z : Int)
  | add_pio (x y z : Int)
  | add_dcc (x y z : Int)
  | add_dcm (x y n z : Int)
  | add_osch (x y z : Int)
  deriving DecidableEq, Repr

/-- One call on the graph under construction: the routing import
`get_tile_bitdata(loc)->add_routing(tile, rg)` of the bit database, a builder
of either family, or `rg->add_arc(loc, arc)`. -/
inductive GraphOp where
  | add_routing (loc : TileLocator) (tile : TileInfo)
  | ecp5 (call : Ecp5Call)
  | machxo2 (call : MachXO2Call)
  | add_arc (loc : Location) (arc : RoutingArc)
  deriving DecidableEq, Repr

/-- The loop `for (int z = lo; z < hi; z++)` whose body appends calls. -/
def for_range (lo hi : Nat) (body : Nat → List GraphOp) : List GraphOp :=
  (List.range' lo (hi - lo)).flatMap body

/-- The character `abcd[i]` of `abcd = "ABCD"`, as a string. -/
def abcd (i : Nat) : String :=
  String.mk ["ABCD".data.getD i (Char.ofNat 0)]

/-- The value `0x4000 | (k << 4) | ((i & 0x3) << 2) | (j & 0x3)` stored in
`lutperm_flags`. -/
def lutperm_pack (k i j : Nat) : Nat :=
  0x4000 ||| (k <<< 4) ||| ((i &&& 0x3) <<< 2) ||| (j &&& 0x3)

/-- The permutation pseudo-pip from input `j` to input `i` of LUT `k` at `loc`. -/
def lutperm_arc (loc : Location) (tiletype : String) (k i j : Nat) : RoutingArc :=
  let input := abcd j ++ toString k
  let output := abcd i ++ toString k ++ "_SLICE"
  { id := input ++ "->" ++ output
    source := ⟨loc, input⟩
    sink := ⟨loc, output⟩
    tiletype := tiletype
    configurable := false
    lutperm_flags := lutperm_pack k i j }

/-- The crossbar loops over `k`, `i` and `j` for slice `z`. -/
def lutperm_pips (loc : Location) (tiletype : String) (z : Nat) : List GraphOp :=
  for_range (z * 2) ((z + 1) * 2) fun k =>
    for_range 0 4 fun i =>
      for_range 0 4 fun j =>
        if i = j then [] else [.add_arc loc (lutperm_arc loc tiletype k i j)]

/-- The SLICE part of the loop body of `get_routing_graph_ecp5`. -/
def ecp5_slice_bels (include_lutperm_pips : Bool) (type : String) (x y : Int) :
    List GraphOp :=
  if type = "PLC2" then
    for_range 0 4 fun z =>
      [.ecp5 (.add_lc x y z)] ++
        (if include_lutperm_pips then lutperm_pips ⟨x, y⟩ type z else [])
  else []

/-- The PIO part. -/
def ecp5_pio_bels (type : String) (x y : Int) : List GraphOp :=
  (if strContains type "PICL0" || strContains type "PICR0" then
    for_range 0 4 fun z => [.ecp5 (.add_pio x y z), .ecp5 (.add_iologic x y z false)]
   else []) ++
  (if strContains type "PIOT0" || (strContains type "PICB0" && type != "SPICB0") then
    for_range 0 2 fun z => [.ecp5 (.add_pio x y z), .ecp5 (.add_iologic x y z true)]
   else []) ++
  (if type = "SPICB0" then
    [.ecp5 (.add_pio x y 0), .ecp5 (.add_iologic x y 0 true)]
   else [])

/-- The DCC and DCS part. -/
def ecp5_dcc_bels (type : String) (x y : Int) : List GraphOp :=
  (if type = "LMID_0" then
    for_range 0 14 fun z => [.ecp5 (.add_dcc x y "L" (toString z))] else []) ++
  (if type = "RMID_0" then
    for_range 0 14 fun z => [.ecp5 (.add_dcc x y "R" (toString z))] else []) ++
  (if type = "TMID_0" then
    for_range 0 12 fun z => [.ecp5 (.add_dcc x y "T" (toString z))] else []) ++
  (if type = "BMID_0V" || type = "BMID_0H" then
    for_range 0 16 fun z => [.ecp5 (.add_dcc x y "B" (toString z))] else []) ++
  (if type = "EBR_CMUX_UL" || type = "DSP_CMUX_UL" then [.ecp5 (.add_dcs x y 0)] else []) ++
  (if type = "EBR_CMUX_LL" || type = "EBR_CMUX_LL_25K" then [.ecp5 (.add_dcs x y 1)] else [])

/-- The RAM part. -/
def ecp5_ram_bels (type : String) (x y : Int) : List GraphOp :=
  (if type = "MIB_EBR0" || type = "EBR_CMUX_UR" || type = "EBR_CMUX_LR"
      || type = "EBR_CMUX_LR_25K" then [.ecp5 (.add_bram x y 0)] else []) ++
  (if type = "MIB_EBR2" then [.ecp5 (.add_bram x y 1)] else []) ++
  (if type = "MIB_EBR4" then [.ecp5 (.add_bram x y 2)] else []) ++
  (if type = "MIB_EBR6" then [.ecp5 (.add_bram x y 3)] else [])

/-- The DSP part. -/
def ecp5_dsp_bels (type : String) (x y : Int) : List GraphOp :=
  (if type = "MIB_DSP0" then [.ecp5 (.add_mult18 x y 0)] else []) ++
  (if type = "MIB_DSP1" then [.ecp5 (.add_mult18 x y 1)] else []) ++
  (if type = "MIB_DSP4" then [.ecp5 (.add_mult18 x y 4)] else []) ++
  (if type = "MIB_DSP5" then [.ecp5 (.add_mult18 x y 5)] else []) ++
  (if type = "MIB_DSP3" then [.ecp5 (.add_alu54b x y 3)] else []) ++
  (if type = "MIB_DSP7" then [.ecp5 (.add_alu54b x y 7)] else [])

/-- The PLL part. -/
def ecp5_pll_bels (type : String) (x y : Int) : List GraphOp :=
  (if type = "PLL0_UL" then [.ecp5 (.add_pll "UL" (x + 1) y)] else []) ++
  (if type = "PLL0_LL" then [.ecp5 (.add_pll "LL" x (y - 1))] else []) ++
  (if type = "PLL0_LR" then [.ecp5 (.add_pll "LR" x (y - 1))] else []) ++
  (if type = "PLL0_UR" then [.ecp5 (.add_pll "UR" (x - 1) y)] else [])

/-- The DCU part with its ancillary Bels. -/
def ecp5_dcu_bels (type : String) (x y : Int) : List GraphOp :=
  (if type = "DCU0" then [.ecp5 (.add_dcu x y), .ecp5 (.add_extref x y)] else []) ++
  (if type = "BMID_0H" then
    for_range 0 2 fun z => [.ecp5 (.add_pcsclkdiv x (y - 1) z)] else [])

/-- The sixteen calls for a tile of type `ECLK_L`. -/
def ecp5_eclk_l (x y : Int) : List GraphOp :=
  [ .ecp5 (.add_ioclk_bel "CLKDIVF" (x - 2) y 0 7),
    .ecp5 (.add_ioclk_bel "CLKDIVF" (x - 2) y 1 6),
    .ecp5 (.add_ioclk_bel "ECLKSYNCB" (x - 2) y 0 7),
    .ecp5 (.add_ioclk_bel "ECLKSYNCB" (x - 2) y 1 7),
    .ecp5 (.add_ioclk_bel "ECLKSYNCB" (x - 2) (y + 1) 0 6),
    .ecp5 (.add_ioclk_bel "ECLKSYNCB" (x - 2) (y + 1) 1 6),
    .ecp5 (.add_ioclk_bel "TRELLIS_ECLKBUF" (x - 2) y 0 7),
    .ecp5 (.add_ioclk_bel "TRELLIS_ECLKBUF" (x - 2) y 1 7),
    .ecp5 (.add_ioclk_bel "TRELLIS_ECLKBUF" (x - 2) (y + 1) 0 6),
    .ecp5 (.add_ioclk_bel "TRELLIS_ECLKBUF" (x - 2) (y + 1) 1 6),
    .ecp5 (.add_ioclk_bel "DLLDELD" (x - 2) (y - 1) 0 (-1)),
    .ecp5 (.add_ioclk_bel "DLLDELD" (x - 2) y 0 (-1)),
    .ecp5 (.add_ioclk_bel "DLLDELD" (x - 2) (y + 1) 0 (-1)),
    .ecp5 (.add_ioclk_bel "DLLDELD" (x - 2) (y + 2) 0 (-1)),
    .ecp5 (.add_ioclk_bel "ECLKBRIDGECS" (x - 2) y 1 (-1)),
    .ecp5 (.add_ioclk_bel "BRGECLKSYNC" (x - 2) y 1 (-1)) ]

/-- The sixteen calls for a tile of type `ECLK_R`. -/
def ecp5_eclk_r (x y : Int) : List GraphOp :=
  [ .ecp5 (.add_ioclk_bel "CLKDIVF" (x + 2) y 0 (-1)),
    .ecp5 (.add_ioclk_bel "CLKDIVF" (x + 2) y 1 (-1)),
    .ecp5 (.add_ioclk_bel "ECLKSYNCB" (x + 2) y 0 2),
    .ecp5 (.add_ioclk_bel "ECLKSYNCB" (x + 2) y 1 2),
    .ecp5 (.add_ioclk_bel "ECLKSYNCB" (x + 2) (y + 1) 0 3),
    .ecp5 (.add_ioclk_bel "ECLKSYNCB" (x + 2) (y + 1) 1 3),
    .ecp5 (.add_ioclk_bel "TRELLIS_ECLKBUF" (x + 2) y 0 2),
    .ecp5 (.add_ioclk_bel "TRELLIS_ECLKBUF" (x + 2) y 1 2),
    .ecp5 (.add_ioclk_bel "TRELLIS_ECLKBUF" (x + 2) (y + 1) 0 3),
    .ecp5 (.add_ioclk_bel "TRELLIS_ECLKBUF" (x + 2) (y + 1) 1 3),
    .ecp5 (.add_ioclk_bel "DLLDELD" (x + 2) (y - 1) 0 (-1)),
    .ecp5 (.add_ioclk_bel "DLLDELD" (x + 2) y 0 (-1)),
    .ecp5 (.add_ioclk_bel "DLLDELD" (x + 2) (y + 1) 0 (-1)),
    .ecp5 (.add_ioclk_bel "DLLDELD" (x + 2) (y + 2) 0 (-1)),
    .ecp5 (.add_ioclk_bel "ECLKBRIDGECS" (x + 2) y 0 (-1)),
    .ecp5 (.add_ioclk_bel "BRGECLKSYNC" (x + 2) y 0 (-1)) ]

/-- The config/system and I/O clock part. -/
def ecp5_config_bels (type : String) (x y : Int) : List GraphOp :=
  (if type = "EFB0_PICB0" then
    [ .ecp5 (.add_misc "GSR" x (y - 1)), .ecp5 (.add_misc "JTAGG" x (y - 1)),
      .ecp5 (.add_misc "OSCG" x (y - 1)), .ecp5 (.add_misc "SEDGA" x (y - 1)) ]
   else []) ++
  (if type = "DTR" then [.ecp5 (.add_misc "DTR" x (y - 1))] else []) ++
  (if type = "EFB1_PICB1" then [.ecp5 (.add_misc "USRMCLK" (x - 5) y)] else []) ++
  (if type = "ECLK_L" then ecp5_eclk_l x y else []) ++
  (if type = "ECLK_R" then ecp5_eclk_r x y else []) ++
  (if type = "DDRDLL_UL" then [.ecp5 (.add_ioclk_bel "DDRDLL" (x - 2) (y - 10) 0 (-1))]
   else []) ++
  (if type = "DDRDLL_ULA" then [.ecp5 (.add_ioclk_bel "DDRDLL" (x - 2) (y - 13) 0 (-1))]
   else []) ++
  (if type = "DDRDLL_UR" then [.ecp5 (.add_ioclk_bel "DDRDLL" (x + 2) (y - 10) 0 (-1))]
   else []) ++
  (if type = "DDRDLL_URA" then [.ecp5 (.add_ioclk_bel "DDRDLL" (x + 2) (y - 13) 0 (-1))]
   else []) ++
  (if type = "DDRDLL_LL" then [.ecp5 (.add_ioclk_bel "DDRDLL" (x - 2) (y + 13) 0 (-1))]
   else []) ++
  (if type = "DDRDLL_LR" then [.ecp5 (.add_ioclk_bel "DDRDLL" (x + 2) (y + 13) 0 (-1))]
   else []) ++
  (if type = "PICL0_DQS2" || type = "PICR0_DQS2" then
    [.ecp5 (.add_ioclk_bel "DQSBUFM" x y 0 (-1))] else [])

/-- The body of the tile loop of `get_routing_graph_ecp5` for one tile: the
routing import, then `tie(y, x) = get_row_col()` and the dispatch on the tile
type. -/
def ecp5_tile_ops (info : ChipInfo) (include_lutperm_pips : Bool) (tile : TileInfo) :
    List GraphOp :=
  let y := tile.get_row_col.1
  let x := tile.get_row_col.2
  [.add_routing ⟨info.family, info.name, tile.type⟩ tile] ++
    ecp5_slice_bels include_lutperm_pips tile.type x y ++
    ecp5_pio_bels tile.type x y ++
    ecp5_dcc_bels tile.type x y ++
    ecp5_ram_bels tile.type x y ++
    ecp5_dsp_bels tile.type x y ++
    ecp5_pll_bels tile.type x y ++
    ecp5_dcu_bels tile.type x y ++
    ecp5_config_bels tile.type x y

/-- `Chip::get_routing_graph_ecp5`: the calls made on the new graph. -/
def Chip.get_routing_graph_ecp5 {R G : Type} (c : Chip R G) (include_lutperm_pips : Bool) :
    List GraphOp :=
  c.tiles.entries.flatMap fun tile_entry =>
    ecp5_tile_ops c.info include_lutperm_pips tile_entry.2.info

/-- The body of the tile loop of `get_routing_graph_machxo2` for one tile. -/
def machxo2_tile_ops (info : ChipInfo) (tile : TileInfo) : List GraphOp :=
  let y := tile.get_row_col.1
  let x := tile.get_row_col.2
  let type := tile.type
  [.add_routing ⟨info.family, info.name, tile.type⟩ tile] ++
  (if type = "PLC" then for_range 0 4 fun z => [.machxo2 (.add_lc x y z)] else []) ++
  (if !strContains type "DUMMY" && !strContains type "CIB" &&
      (strContains type "PIC_L0" || strContains type "PIC_T" ||
       strContains type "PIC_R0" || strContains type "PIC_B") then
    for_range 0 4 fun z => [.machxo2 (.add_pio x y z)] else []) ++
  (if strContains type "PIC_LS0" || strContains type "PIC_RS0" then
    for_range 0 2 fun z => [.machxo2 (.add_pio x y z)] else []) ++
  (if strContains type "CENTER_EBR_CIB" then
    (for_range 0 8 fun z => [.machxo2 (.add_dcc x y z)]) ++
    (for_range 6 8 fun z => [.machxo2 (.add_dcm x y z (z + 2))]) else []) ++
  (if strContains type "CIB_CFG0" then [.machxo2 (.add_osch x y 0)] else [])

/-- `Chip::get_routing_graph_machxo2`: the calls made on the new graph. -/
def Chip.get_routing_graph_machxo2 {R G : Type} (c : Chip R G) : List GraphOp :=
  c.tiles.entries.flatMap fun tile_entry => machxo2_tile_ops c.info tile_entry.2.info

/-- `Chip::get_routing_graph`. -/
def Chip.get_routing_graph {R G : Type} (c : Chip R G) (include_lutperm_pips : Bool) :
    Except Error (List GraphOp) :=
  if c.info.family = "ECP5" then
    pure (c.get_routing_graph_ecp5 include_lutperm_pips)
  else if c.info.family = "MachXO2" then
    pure c.get_routing_graph_machxo2
  else
    throw (.runtime_error ("Unknown chip family: " ++ c.info.family))

/-- The arcs inserted by `add_arc` among a sequence of calls. -/
def added_arcs : List GraphOp → List RoutingArc
  | [] => []
  | .add_arc _ arc :: rest => arc :: added_arcs rest
  | _ :: rest => added_arcs rest

/-- Unpacking of `lutperm_flags` by a consumer: the LUT `(flags >> 4) & 0x3FF`,
the destination `(flags >> 2) & 3` and the source `flags & 3`. -/
def lutperm_unpack (flags : Nat) : Nat × Nat × Nat :=
  ((flags >>> 4) &&& 0x3FF, (flags >>> 2) &&& 3, flags &&& 3)

/-! ## Global network of the ECP5 -/

/-- `GlobalRegion::matches`. -/
def GlobalRegion.matches (g : GlobalRegion) (row col : Int) : Bool :=
  decide (row ≥ g.y0) && decide (row ≤ g.y1) && decide (col ≥ g.x0) && decide (col ≤ g.x1)

/-- `TapSegment::matches_left`; the row is unused. -/
def TapSegment.matches_left (s : TapSegment) (_row col : Int) : Bool :=
  decide (col ≥ s.lx0) && decide (col ≤ s.lx1)

/-- `TapSegment::matches_right`; the row is unused. -/
def TapSegment.matches_right (s : TapSegment) (_row col : Int) : Bool :=
  decide (col ≥ s.rx0) && decide (col ≤ s.rx1)

/-- The loop of `get_quadrant`: `some` at the `return`, `none` at loop exit. -/
def get_quadrant_loop (row col : Int) : List GlobalRegion → Option String
  | [] => none
  | quad :: rest =>
    if quad.matches row col then some quad.name else get_quadrant_loop row col rest

/-- `Ecp5GlobalsInfo::get_quadrant`. -/
def Ecp5GlobalsInfo.get_quadrant (g : Ecp5GlobalsInfo) (row col : Int) :
    Except Error String :=
  match get_quadrant_loop row col g.quadrants with
  | some name => .ok name
  | none => .error (.runtime_error
      ("R" ++ toString row ++ "C" ++ toString col ++ " matches no globals quadrant"))

/-- The loop of `get_tap_driver`. -/
def get_tap_driver_loop (row col : Int) : List TapSegment → Option TapDriver
  | [] => none
  | seg :: rest =>
    if seg.matches_left row col then some { dir := .LEFT, col := seg.tap_col }
    else if seg.matches_right row col then some { dir := .RIGHT, col := seg.tap_col }
    else get_tap_driver_loop row col rest

/-- `Ecp5GlobalsInfo::get_tap_driver`. -/
def Ecp5GlobalsInfo.get_tap_driver (g : Ecp5GlobalsInfo) (row col : Int) :
    Except Error TapDriver :=
  match get_tap_driver_loop row col g.tapsegs with
  | some td => .ok td
  | none => .error (.runtime_error
      ("R" ++ toString row ++ "C" ++ toString col ++ " matches no global TAP_DRIVE segment"))

/-- The loop of `get_spine_driver`. -/
def get_spine_driver_loop (quadrant : String) (col : Int) :
    List SpineSegment → Option (Int × Int)
  | [] => none
  | seg :: rest =>
    if seg.quadrant = quadrant ∧ seg.tap_col = col then some (seg.spine_row, seg.spine_col)
    else get_spine_driver_loop quadrant col rest

/-- `Ecp5GlobalsInfo::get_spine_driver`. -/
def Ecp5GlobalsInfo.get_spine_driver (g : Ecp5GlobalsInfo) (quadrant : String) (col : Int) :
    Except Error (Int × Int) :=
  match get_spine_driver_loop quadrant col g.spinesegs with
  | some p => .ok p
  | none => .error (.runtime_error
      (quadrant ++ "C" ++ toString col ++ " matches no global SPINE segment"))

/-- What a scan-and-throw function computes: the image under `f` of the first
element that passes `p`, or the error `err` when none passes. -/
def scan_or_throw {α β : Type} (p : α → Bool) (f : α → β) (err : Error) (l : List α) :
    Except Error β :=
  match (l.find? p).map f with
  | some b => .ok b
  | none => .error err

/-- The crossbar positions `(k, i, j)` in loop order: LUT `k` in `0..7`,
destination `i` in `0..3` and source `j` in `0..3` other than `i`. -/
def crossbar_triples : List (Nat × Nat × Nat) :=
  (List.range 8).flatMap fun k => (List.range 4).flatMap fun i =>
    ((List.range 4).filter (fun j => j != i)).map fun j => (k, i, j)

/-! ## Sample devices -/

/-- Bit regions read as binary numbers, their difference the bitwise
exclusive or, empty when it is zero. -/
def xor_ops : CramOps Nat Nat where
  sub := fun r s => r ^^^ s
  empty := fun d => d == 0

/-- Constants of a sample ECP5 device. -/
def sample_info : ChipInfo :=
  { name := "LFE5U-25F", family := "ECP5", num_frames := 7562, bits_per_frame := 592,
    max_row := 50, max_col := 72 }

/-- A logic tile at row 2, column 3. -/
def tile_r2c3 : TileInfo := { name := "R2C3:PLC2", type := "PLC2", row := 2, col := 3 }

/-- A logic tile at row 2, column 4. -/
def tile_r2c4 : TileInfo := { name := "R2C4:PLC2", type := "PLC2", row := 2, col := 4 }

/-- A chip of the two sample tiles with the region contents `r₁` and `r₂`. -/
def sample_chip (r₁ r₂ : Nat) : Chip Nat Unit :=
  { info := sample_info
    tiles := (StdMap.empty.set "R2C3:PLC2" ⟨tile_r2c3, r₁⟩).set "R2C4:PLC2" ⟨tile_r2c4, r₂⟩
    tiles_at_location :=
      [[], [], [[], [], [], [("R2C3:PLC2", "PLC2")], [("R2C4:PLC2", "PLC2")]]]
    global_data_ecp5 := some ⟨[], [], []⟩
    global_data_machxo2 := none }

/-- A chip of the first sample tile alone. -/
def small_chip (r₁ : Nat) : Chip Nat Unit :=
  { info := sample_info
    tiles := StdMap.empty.set "R2C3:PLC2" ⟨tile_r2c3, r₁⟩
    tiles_at_location := [[], [], [[], [], [], [("R2C3:PLC2", "PLC2")]]]
    global_data_ecp5 := some ⟨[], [], []⟩
    global_data_machxo2 := none }

/-! ## Notions used in the proofs on chip construction -/

/-- The vector `v` after the guarded `resize(n + 1)` of the constructor: padded
with `d` up to index `n` when it was too short. -/
def growN {α : Type} (v : List α) (n : Nat) (d : α) : List α :=
  if v.length ≤ n then v ++ List.replicate (n + 1 - v.length) d else v

/-- The cell of the grid index at row `r`, column `c`, empty outside the
vectors. -/
def cellOf (tal : List (List (List (String × String)))) (r c : Nat) :
    List (String × String) :=
  (tal.getD r []).getD c []

/-- The grid index after `e` is pushed to the cell at row `r`, column `c`. -/
def push_at (tal : List (List (List (String × String)))) (r c : Nat) (e : String × String) :
    List (List (List (String × String))) :=
  let tal1 := growN tal r []
  let row1 := growN (tal1.getD r []) c []
  tal1.set r (row1.set c (row1.getD c [] ++ [e]))

/-- A sample device database: the two sample tiles, no global network data,
regions that start out as zero. -/
def sample_db : Database Nat Unit :=
  { get_device_tilegrid := fun _ => [tile_r2c3, tile_r2c4]
    get_global_info_ecp5 := fun _ => ⟨[], [], []⟩
    get_global_info_machxo2 := fun _ => ()
    make_view := fun _ _ => 0 }

/-! ## Views of a sequence of calls -/

/-- The call is a routing import of the bit database. -/
def GraphOp.is_routing : GraphOp → Bool
  | .add_routing _ _ => true
  | _ => false

/-- The call is a primitive builder of either family. -/
def GraphOp.is_builder : GraphOp → Bool
  | .ecp5 _ => true
  | .machxo2 _ => true
  | _ => false

/-- The call is an `add_arc`. -/
def GraphOp.is_arc : GraphOp → Bool
  | .add_arc _ _ => true
  | _ => false

/-- The routing imports among a sequence of calls. -/
def routing_calls (l : List GraphOp) : List GraphOp := l.filter GraphOp.is_routing

/-- The primitive-builder calls among a sequence of calls. -/
def builder_calls (l : List GraphOp) : List GraphOp := l.filter GraphOp.is_builder

/-- The calls other than `add_arc` among a sequence of calls. -/
def without_arcs (l : List GraphOp) : List GraphOp := l.filter (fun op => !op.is_arc)

/-- The calls made on a graph in the course of `Chip::get_routing_graph`,
whether it returns or throws: those of the builder of the family, and none in
the branch that throws, which is reached before any graph exists. -/
def Chip.get_routing_graph_calls {R G : Type} (c : Chip R G) (include_lutperm_pips : Bool) :
    List GraphOp :=
  if c.info.family = "ECP5" then
    c.get_routing_graph_ecp5 include_lutperm_pips
  else if c.info.family = "MachXO2" then
    c.get_routing_graph_machxo2
  else
    []

/-- Constants of a sample MachXO2 device. -/
def machxo2_info : ChipInfo :=
  { name := "LCMXO2-1200HC", family := "MachXO2", num_frames := 333, bits_per_frame := 1080,
    max_row := 12, max_col := 22 }

/-- A MachXO2 logic tile at row 2, column 3. -/
def tile_plc : TileInfo := { name := "R2C3:PLC", type := "PLC", row := 2, col := 3 }

/-- A MachXO2 chip of the one logic tile. -/
def machxo2_chip : Chip Nat Unit :=
  { info := machxo2_info
    tiles := StdMap.empty.set "R2C3:PLC" ⟨tile_plc, 0⟩
    tiles_at_location := [[], [], [[], [], [], [("R2C3:PLC", "PLC")]]]
    global_data_ecp5 := none
    global_data_machxo2 := some () }

/-- The one-tile sample chip with the family tag of an unsupported family. -/
def unknown_chip : Chip Nat Unit :=
  { small_chip 0 with info := { sample_info with family := "iCE40" } }

/-! ## The dispatch table of the ECP5 -/

/-- A rule of a dispatch table: the test on the tile type, and the calls made
for a tile at `x`, `y` when the test passes. -/
structure DispatchRule where
  applies : String → Bool
  calls : Int → Int → List GraphOp

/-- The rules of `get_routing_graph_ecp5`: one rule for each `if` statement on
the tile type in the loop body, in the order of the statements. -/
def ecp5_rules (include_lutperm_pips : Bool) : List DispatchRule :=
  [ ⟨fun type => type == "PLC2", fun x y =>
      for_range 0 4 fun z =>
        [.ecp5 (.add_lc x y z)] ++
          (if include_lutperm_pips then lutperm_pips ⟨x, y⟩ "PLC2" z else [])⟩,
    ⟨fun type => strContains type "PICL0" || strContains type "PICR0", fun x y =>
      for_range 0 4 fun z => [.ecp5 (.add_pio x y z), .ecp5 (.add_iologic x y z false)]⟩,
    ⟨fun type => strContains type "PIOT0" || (strContains type "PICB0" && type != "SPICB0"),
      fun x y =>
        for_range 0 2 fun z => [.ecp5 (.add_pio x y z), .ecp5 (.add_iologic x y z true)]⟩,
    ⟨fun type => type == "SPICB0", fun x y =>
      [.ecp5 (.add_pio x y 0), .ecp5 (.add_iologic x y 0 true)]⟩,
    ⟨fun type => type == "LMID_0", fun x y =>
      for_range 0 14 fun z => [.ecp5 (.add_dcc x y "L" (toString z))]⟩,
    ⟨fun type => type == "RMID_0", fun x y =>
      for_range 0 14 fun z => [.ecp5 (.add_dcc x y "R" (toString z))]⟩,
    ⟨fun type => type == "TMID_0", fun x y =>
      for_range 0 12 fun z => [.ecp5 (.add_dcc x y "T" (toString z))]⟩,
    ⟨fun type => type == "BMID_0V" || type == "BMID_0H", fun x y =>
      for_range 0 16 fun z => [.ecp5 (.add_dcc x y "B" (toString z))]⟩,
    ⟨fun type => type == "EBR_CMUX_UL" || type == "DSP_CMUX_UL", fun x y =>
      [.ecp5 (.add_dcs x y 0)]⟩,
    ⟨fun type => type == "EBR_CMUX_LL" || type == "EBR_CMUX_LL_25K", fun x y =>
      [.ecp5 (.add_dcs x y 1)]⟩,
    ⟨fun type => type == "MIB_EBR0" || type == "EBR_CMUX_UR" || type == "EBR_CMUX_LR"
        || type == "EBR_CMUX_LR_25K", fun x y => [.ecp5 (.add_bram x y 0)]⟩,
    ⟨fun type => type == "MIB_EBR2", fun x y => [.ecp5 (.add_bram x y 1)]⟩,
    ⟨fun type => type == "MIB_EBR4", fun x y => [.ecp5 (.add_bram x y 2)]⟩,
    ⟨fun type => type == "MIB_EBR6", fun x y => [.ecp5 (.add_bram x y 3)]⟩,
    ⟨fun type => type == "MIB_DSP0", fun x y => [.ecp5 (.add_mult18 x y 0)]⟩,
    ⟨fun type => type == "MIB_DSP1", fun x y => [.ecp5 (.add_mult18 x y 1)]⟩,
    ⟨fun type => type == "MIB_DSP4", fun x y => [.ecp5 (.add_mult18 x y 4)]⟩,
    ⟨fun type => type == "MIB_DSP5", fun x y => [.ecp5 (.add_mult18 x y 5)]⟩,
    ⟨fun type => type == "MIB_DSP3", fun x y => [.ecp5 (.add_alu54b x y 3)]⟩,
    ⟨fun type => type == "MIB_DSP7", fun x y => [.ecp5 (.add_alu54b x y 7)]⟩,
    ⟨fun type => type == "PLL0_UL", fun x y => [.ecp5 (.add_pll "UL" (x + 1) y)]⟩,
    ⟨fun type => type == "PLL0_LL", fun x y => [.ecp5 (.add_pll "LL" x (y - 1))]⟩,
    ⟨fun type => type == "PLL0_LR", fun x y => [.ecp5 (.add_pll "LR" x (y - 1))]⟩,
    ⟨fun type => type == "PLL0_UR", fun x y => [.ecp5 (.add_pll "UR" (x - 1) y)]⟩,
    ⟨fun type => type == "DCU0", fun x y => [.ecp5 (.add_dcu x y), .ecp5 (.add_extref x y)]⟩,
    ⟨fun type => type == "BMID_0H", fun x y =>
      for_range 0 2 fun z => [.ecp5 (.add_pcsclkdiv x (y - 1) z)]⟩,
    ⟨fun type => type == "EFB0_PICB0", fun x y =>
      [ .ecp5 (.add_misc "GSR" x (y - 1)), .ecp5 (.add_misc "JTAGG" x (y - 1)),
        .ecp5 (.add_misc "OSCG" x (y - 1)), .ecp5 (.add_misc "SEDGA" x (y - 1)) ]⟩,
    ⟨fun type => type == "DTR", fun x y => [.ecp5 (.add_misc "DTR" x (y - 1))]⟩,
    ⟨fun type => type == "EFB1_PICB1", fun x y => [.ecp5 (.add_misc "USRMCLK" (x - 5) y)]⟩,
    ⟨fun type => type == "ECLK_L", fun x y => ecp5_eclk_l x y⟩,
    ⟨fun type => type == "ECLK_R", fun x y => ecp5_eclk_r x y⟩,
    ⟨fun type => type == "DDRDLL_UL", fun x y =>
      [.ecp5 (.add_ioclk_bel "DDRDLL" (x - 2) (y - 10) 0 (-1))]⟩,
    ⟨fun type => type == "DDRDLL_ULA", fun x y =>
      [.ecp5 (.add_ioclk_bel "DDRDLL" (x - 2) (y - 13) 0 (-1))]⟩,
    ⟨fun type => type == "DDRDLL_UR", fun x y =>
      [.ecp5 (.add_ioclk_bel "DDRDLL" (x + 2) (y - 10) 0 (-1))]⟩,
    ⟨fun type => type == "DDRDLL_URA", fun x y =>
      [.ecp5 (.add_ioclk_bel "DDRDLL" (x + 2) (y - 13) 0 (-1))]⟩,
    ⟨fun type => type == "DDRDLL_LL", fun x y =>
      [.ecp5 (.add_ioclk_bel "DDRDLL" (x - 2) (y + 13) 0 (-1))]⟩,
    ⟨fun type => type == "DDRDLL_LR", fun x y =>
      [.ecp5 (.add_ioclk_bel "DDRDLL" (x + 2) (y + 13) 0 (-1))]⟩,
    ⟨fun type => type == "PICL0_DQS2" || type == "PICR0_DQS2", fun x y =>
      [.ecp5 (.add_ioclk_bel "DQSBUFM" x y 0 (-1))]⟩ ]

/-- An I/O tile with a DQS buffer at row 1, column 0. -/
def tile_dqs : TileInfo :=
  { name := "MIB_R1C0:PICL0_DQS2", type := "PICL0_DQS2", row := 1, col := 0 }

/-- A bottom-middle tile at row 3, column 1. -/
def tile_bmid : TileInfo :=
  { name := "MIB_R3C1:BMID_0H", type := "BMID_0H", row := 3, col := 1 }

/-- An ECP5 chip of the I/O tile and the bottom-middle tile. -/
def clock_chip : Chip Nat Unit :=
  { info := sample_info
    tiles := (StdMap.empty.set "MIB_R1C0:PICL0_DQS2" ⟨tile_dqs, 0⟩).set
      "MIB_R3C1:BMID_0H" ⟨tile_bmid, 0⟩
    tiles_at_location :=
      [[], [[("MIB_R1C0:PICL0_DQS2", "PICL0_DQS2")]], [],
        [[], [("MIB_R3C1:BMID_0H", "BMID_0H")]]]
    global_data_ecp5 := some ⟨[], [], []⟩
    global_data_machxo2 := none }

/-- The call is an `add_pio` of either family. -/
def GraphOp.is_pio : GraphOp → Bool
  | .ecp5 (.add_pio _ _ _) => true
  | .machxo2 (.add_pio _ _ _) => true
  | _ => false

/-- The `add_pio` calls among a sequence of calls. -/
def pio_calls (l : List GraphOp) : List GraphOp := l.filter GraphOp.is_pio

/-- A MachXO2 tile whose type holds both `PIC_LS0` and `DUMMY`. -/
def tile_ls0_dummy : TileInfo :=
  { name := "PL5:PIC_LS0_DUMMY", type := "PIC_LS0_DUMMY", row := 5, col := 0 }

/-- A MachXO2 tile whose type holds both `CIB` and `PIC_RS0`. -/
def tile_cib_rs0 : TileInfo :=
  { name := "PR5:CIB_PIC_RS0", type := "CIB_PIC_RS0", row := 5, col := 22 }

/-! ## Lemmas on linear scans -/

theorem find?_eq_some_split {α : Type} (p : α → Bool) (l : List α) (a : α) :
    l.find? p = some a ↔
      ∃ pre post, l = pre ++ a :: post ∧ (∀ x ∈ pre, p x = false) ∧ p a = true := by
  induction l with
  | nil => simp
  | cons hd tl ih =>
    by_cases hp : p hd = true
    · rw [List.find?_cons_of_pos _ hp]
      constructor
      · intro h
        cases h
        exact ⟨[], tl, rfl, by simp, hp⟩
      · rintro ⟨pre, post, hl, hpre, _⟩
        cases pre with
        | nil =>
          simp only [List.nil_append, List.cons.injEq] at hl
          rw [hl.1]
        | cons x xs =>
          simp only [List.cons_append, List.cons.injEq] at hl
          have := hpre x (List.mem_cons_self _ _)
          rw [← hl.1, hp] at this
          exact absurd this (by simp)
    · rw [List.find?_cons_of_neg _ hp, ih]
      constructor
      · rintro ⟨pre, post, hl, hpre, ha⟩
        refine ⟨hd :: pre, post, by rw [hl]; rfl, ?_, ha⟩
        intro x hx
        rcases List.mem_cons.mp hx with h | h
        · rw [h]
          simpa using hp
        · exact hpre x h
      · rintro ⟨pre, post, hl, hpre, ha⟩
        cases pre with
        | nil =>
          simp only [List.nil_append, List.cons.injEq] at hl
          rw [hl.1] at hp
          exact absurd ha hp
        | cons x xs =>
          simp only [List.cons_append, List.cons.injEq] at hl
          exact ⟨xs, post, hl.2, fun y hy => hpre y (List.mem_cons_of_mem _ hy), ha⟩

theorem scan_or_throw_spec {α β : Type} (p : α → Bool) (f : α → β) (err : Error)
    (l : List α) :
    (∀ b, scan_or_throw p f err l = .ok b ↔
      ∃ pre a post, l = pre ++ a :: post ∧ (∀ x ∈ pre, ¬ p x = true) ∧ p a = true ∧ f a = b) ∧
    ((∃ e, scan_or_throw p f err l = .error e) ↔ ∀ x ∈ l, ¬ p x = true) ∧
    (∀ e, scan_or_throw p f err l = .error e → e = err) := by
  unfold scan_or_throw
  cases hf : l.find? p with
  | none =>
    have hnone := List.find?_eq_none.mp hf
    simp only [Option.map_none']
    refine ⟨fun b => ⟨fun h => (by cases h), ?_⟩, ⟨fun _ => hnone, fun _ => ⟨err, rfl⟩⟩, ?_⟩
    · rintro ⟨pre, a, post, hl, _, ha, _⟩
      exact absurd ha (hnone a (by rw [hl]; simp))
    · intro e he
      cases he
      rfl
  | some a =>
    obtain ⟨pre, post, hl, hpre, ha⟩ := (find?_eq_some_split _ _ _).mp hf
    simp only [Option.map_some']
    refine ⟨fun b => ⟨fun h => ?_, ?_⟩, ⟨fun h => ?_, fun h => ?_⟩, ?_⟩
    · cases h
      exact ⟨pre, a, post, hl, fun x hx => by simp [hpre x hx], ha, rfl⟩
    · rintro ⟨pre', a', post', hl', hpre', ha', hb⟩
      have h2 : l.find? p = some a' :=
        (find?_eq_some_split _ _ _).mpr ⟨pre', post', hl', fun x hx => by
          simpa using hpre' x hx, ha'⟩
      rw [hf] at h2
      cases h2
      rw [hb]
    · obtain ⟨e, he⟩ := h
      cases he
    · exact absurd ha (h a (by rw [hl]; simp))
    · intro e he
      cases he

theorem get_quadrant_loop_eq (row col : Int) (l : List GlobalRegion) :
    get_quadrant_loop row col l =
      (l.find? (fun q => q.matches row col)).map (fun q => q.name) := by
  induction l with
  | nil => rfl
  | cons hd tl ih =>
    by_cases h : hd.matches row col = true
    · simp [get_quadrant_loop, h]
    · simp [get_quadrant_loop, h, ih]

theorem get_tap_driver_loop_eq (row col : Int) (l : List TapSegment) :
    get_tap_driver_loop row col l =
      (l.find? (fun s => s.matches_left row col || s.matches_right row col)).map
        (fun s => if s.matches_left row col then { dir := .LEFT, col := s.tap_col }
                  else { dir := .RIGHT, col := s.tap_col }) := by
  induction l with
  | nil => rfl
  | cons hd tl ih =>
    by_cases h : hd.matches_left row col = true
    · simp [get_tap_driver_loop, h]
    · by_cases h' : hd.matches_right row col = true
      · simp [get_tap_driver_loop, h, h']
      · simp [get_tap_driver_loop, h, h', ih]

theorem get_spine_driver_loop_eq (quadrant : String) (col : Int) (l : List SpineSegment) :
    get_spine_driver_loop quadrant col l =
      (l.find? (fun s => decide (s.quadrant = quadrant ∧ s.tap_col = col))).map
        (fun s => (s.spine_row, s.spine_col)) := by
  induction l with
  | nil => rfl
  | cons hd tl ih =>
    by_cases h : hd.quadrant = quadrant ∧ hd.tap_col = col
    · simp [get_spine_driver_loop, h]
    · have h' : ¬ (hd.quadrant = quadrant ∧ hd.tap_col = col) := h
      simp only [get_spine_driver_loop, if_neg h', ih]
      rw [List.find?_cons_of_neg]
      simpa using h

theorem matches_iff (q : GlobalRegion) (row col : Int) :
    q.matches row col = true ↔ (q.y0 ≤ row ∧ row ≤ q.y1 ∧ q.x0 ≤ col ∧ col ≤ q.x1) := by
  simp [GlobalRegion.matches, and_assoc]

theorem matches_left_iff (s : TapSegment) (row col : Int) :
    s.matches_left row col = true ↔ (s.lx0 ≤ col ∧ col ≤ s.lx1) := by
  simp [TapSegment.matches_left]

theorem matches_right_iff (s : TapSegment) (row col : Int) :
    s.matches_right row col = true ↔ (s.rx0 ≤ col ∧ col ≤ s.rx1) := by
  simp [TapSegment.matches_right]

/-! ## Global network lookups -/

/-- C8: `get_quadrant(row, col)` returns a name exactly when it is the name of
the first region, in declared order, whose rectangle contains the point (no
region before it does; regions after it are not looked at); it fails exactly
when no declared region contains the point, and the error is then the
`runtime_error` whose message spells out the row and the column. -/
theorem get_quadrant_first_match (g : Ecp5GlobalsInfo) (row col : Int) :
    (∀ name, g.get_quadrant row col = .ok name ↔
      ∃ pre quad post, g.quadrants = pre ++ quad :: post ∧
        (∀ q ∈ pre, ¬ (q.y0 ≤ row ∧ row ≤ q.y1 ∧ q.x0 ≤ col ∧ col ≤ q.x1)) ∧
        (quad.y0 ≤ row ∧ row ≤ quad.y1 ∧ quad.x0 ≤ col ∧ col ≤ quad.x1) ∧
        quad.name = name) ∧
    ((∃ e, g.get_quadrant row col = .error e) ↔
      ∀ q ∈ g.quadrants, ¬ (q.y0 ≤ row ∧ row ≤ q.y1 ∧ q.x0 ≤ col ∧ col ≤ q.x1)) ∧
    (∀ e, g.get_quadrant row col = .error e →
      e = .runtime_error
        ("R" ++ toString row ++ "C" ++ toString col ++ " matches no globals quadrant")) := by
  have h := scan_or_throw_spec (fun q : GlobalRegion => q.matches row col) (fun q => q.name)
    (.runtime_error
      ("R" ++ toString row ++ "C" ++ toString col ++ " matches no globals quadrant"))
    g.quadrants
  simp only [matches_iff] at h
  have heq : g.get_quadrant row col = scan_or_throw (fun q : GlobalRegion => q.matches row col)
      (fun q => q.name) (.runtime_error
        ("R" ++ toString row ++ "C" ++ toString col ++ " matches no globals quadrant"))
      g.quadrants := by
    unfold Ecp5GlobalsInfo.get_quadrant scan_or_throw
    rw [get_quadrant_loop_eq]
    generalize Option.map _ _ = o
    cases o <;> rfl
  rw [heq]
  exact h

/-- C9: `get_tap_driver(row, col)` returns a driver exactly when it is the one
of the first segment, in declared order, whose left or right column range
holds `col` (no segment before it has a matching range): direction `LEFT` when
the left range of that segment matches, whether or not its right range does,
else `RIGHT`, and the column is the `tap_col` of that segment. It fails exactly
when no segment has a matching range, with the `runtime_error` naming the row
and column. -/
theorem get_tap_driver_first_match (g : Ecp5GlobalsInfo) (row col : Int) :
    (∀ td, g.get_tap_driver row col = .ok td ↔
      ∃ pre seg post, g.tapsegs = pre ++ seg :: post ∧
        (∀ s ∈ pre, ¬ (s.lx0 ≤ col ∧ col ≤ s.lx1) ∧ ¬ (s.rx0 ≤ col ∧ col ≤ s.rx1)) ∧
        (((seg.lx0 ≤ col ∧ col ≤ seg.lx1) ∧ td = { dir := .LEFT, col := seg.tap_col }) ∨
         (¬ (seg.lx0 ≤ col ∧ col ≤ seg.lx1) ∧ (seg.rx0 ≤ col ∧ col ≤ seg.rx1) ∧
            td = { dir := .RIGHT, col := seg.tap_col }))) ∧
    ((∃ e, g.get_tap_driver row col = .error e) ↔
      ∀ s ∈ g.tapsegs, ¬ (s.lx0 ≤ col ∧ col ≤ s.lx1) ∧ ¬ (s.rx0 ≤ col ∧ col ≤ s.rx1)) ∧
    (∀ e, g.get_tap_driver row col = .error e →
      e = .runtime_error
        ("R" ++ toString row ++ "C" ++ toString col ++
          " matches no global TAP_DRIVE segment")) := by
  have h := scan_or_throw_spec
    (fun s : TapSegment => s.matches_left row col || s.matches_right row col)
    (fun s => if s.matches_left row col then ({ dir := .LEFT, col := s.tap_col } : TapDriver)
              else { dir := .RIGHT, col := s.tap_col })
    (.runtime_error
      ("R" ++ toString row ++ "C" ++ toString col ++ " matches no global TAP_DRIVE segment"))
    g.tapsegs
  have heq : g.get_tap_driver row col = scan_or_throw
      (fun s : TapSegment => s.matches_left row col || s.matches_right row col)
      (fun s => if s.matches_left row col then ({ dir := .LEFT, col := s.tap_col } : TapDriver)
                else { dir := .RIGHT, col := s.tap_col })
      (.runtime_error
        ("R" ++ toString row ++ "C" ++ toString col ++ " matches no global TAP_DRIVE segment"))
      g.tapsegs := by
    unfold Ecp5GlobalsInfo.get_tap_driver scan_or_throw
    rw [get_tap_driver_loop_eq]
    generalize Option.map _ _ = o
    cases o <;> rfl
  rw [← heq] at h
  simp only [Bool.or_eq_true, matches_left_iff, matches_right_iff, not_or] at h
  refine ⟨fun td => ?_, h.2.1, h.2.2⟩
  rw [h.1 td]
  constructor
  · rintro ⟨pre, a, post, hl, hpre, ha, hf⟩
    refine ⟨pre, a, post, hl, hpre, ?_⟩
    by_cases hL : a.lx0 ≤ col ∧ col ≤ a.lx1
    · rw [if_pos hL] at hf
      exact Or.inl ⟨hL, hf.symm⟩
    · rw [if_neg hL] at hf
      exact Or.inr ⟨hL, ha.resolve_left hL, hf.symm⟩
  · rintro ⟨pre, a, post, hl, hpre, ⟨hL, htd⟩ | ⟨hL, hR, htd⟩⟩
    · exact ⟨pre, a, post, hl, hpre, Or.inl hL, by rw [if_pos hL, htd]⟩
    · exact ⟨pre, a, post, hl, hpre, Or.inr hR, by rw [if_neg hL, htd]⟩

/-- C10: `get_spine_driver(quadrant, col)` returns a pair exactly when it is
`(spine_row, spine_col)` of the first declared spine record whose quadrant is
the requested one and whose `tap_col` is `col` (no record before it matches
both fields); it fails exactly when no record matches both fields, with the
`runtime_error` naming the quadrant and the column. -/
theorem get_spine_driver_first_match (g : Ecp5GlobalsInfo) (quadrant : String) (col : Int) :
    (∀ p, g.get_spine_driver quadrant col = .ok p ↔
      ∃ pre seg post, g.spinesegs = pre ++ seg :: post ∧
        (∀ s ∈ pre, ¬ (s.quadrant = quadrant ∧ s.tap_col = col)) ∧
        (seg.quadrant = quadrant ∧ seg.tap_col = col) ∧
        (seg.spine_row, seg.spine_col) = p) ∧
    ((∃ e, g.get_spine_driver quadrant col = .error e) ↔
      ∀ s ∈ g.spinesegs, ¬ (s.quadrant = quadrant ∧ s.tap_col = col)) ∧
    (∀ e, g.get_spine_driver quadrant col = .error e →
      e = .runtime_error
        (quadrant ++ "C" ++ toString col ++ " matches no global SPINE segment")) := by
  have h := scan_or_throw_spec
    (fun s : SpineSegment => decide (s.quadrant = quadrant ∧ s.tap_col = col))
    (fun s => (s.spine_row, s.spine_col))
    (.runtime_error (quadrant ++ "C" ++ toString col ++ " matches no global SPINE segment"))
    g.spinesegs
  simp only [decide_eq_true_eq] at h
  have heq : g.get_spine_driver quadrant col = scan_or_throw
      (fun s : SpineSegment => decide (s.quadrant = quadrant ∧ s.tap_col = col))
      (fun s => (s.spine_row, s.spine_col))
      (.runtime_error (quadrant ++ "C" ++ toString col ++ " matches no global SPINE segment"))
      g.spinesegs := by
    unfold Ecp5GlobalsInfo.get_spine_driver scan_or_throw
    rw [get_spine_driver_loop_eq]
    generalize Option.map _ _ = o
    cases o <;> rfl
  rw [heq]
  exact h

/-! ## Permutation flags -/

theorem lutperm_unpack_pack : ∀ k < 8, ∀ i < 4, ∀ j < 4,
    lutperm_unpack (lutperm_pack k i j) = (k, i, j) ∧
      lutperm_pack k i j &&& 0x4000 = 0x4000 := by
  decide

/-- C6: for every LUT `k` in `0..7`, destination `i` and source `j` in `0..3`
with `i ≠ j`, the packed flags have the marker bit `0x4000` set, unpacking
them gives back `(k, i, j)`, and no other such triple packs to the same
value. -/
theorem lutperm_flags_roundtrip (k i j : Nat) (hk : k < 8) (hi : i < 4) (hj : j < 4)
    (_hij : i ≠ j) :
    lutperm_pack k i j &&& 0x4000 = 0x4000 ∧
    lutperm_unpack (lutperm_pack k i j) = (k, i, j) ∧
    ∀ k' i' j', k' < 8 → i' < 4 → j' < 4 → i' ≠ j' →
      lutperm_pack k' i' j' = lutperm_pack k i j → (k', i', j') = (k, i, j) := by
  refine ⟨(lutperm_unpack_pack k hk i hi j hj).2, (lutperm_unpack_pack k hk i hi j hj).1, ?_⟩
  intro k' i' j' hk' hi' hj' _ heq
  rw [← (lutperm_unpack_pack k' hk' i' hi' j' hj').1, heq,
    (lutperm_unpack_pack k hk i hi j hj).1]

/-- C6 at LUT 5, destination 2, source 1. -/
theorem lutperm_flags_roundtrip_witness :
    lutperm_pack 5 2 1 &&& 0x4000 = 0x4000 ∧
    lutperm_unpack (lutperm_pack 5 2 1) = (5, 2, 1) ∧
    ∀ k' i' j', k' < 8 → i' < 4 → j' < 4 → i' ≠ j' →
      lutperm_pack k' i' j' = lutperm_pack 5 2 1 → (k', i', j') = (5, 2, 1) :=
  lutperm_flags_roundtrip 5 2 1 (by decide) (by decide) (by decide) (by decide)

/-! ## The arcs among the calls of graph construction -/

theorem added_arcs_append (l₁ l₂ : List GraphOp) :
    added_arcs (l₁ ++ l₂) = added_arcs l₁ ++ added_arcs l₂ := by
  induction l₁ with
  | nil => rfl
  | cons op tl ih =>
    cases op <;> simp [added_arcs, ih]

theorem added_arcs_flatMap {α : Type} (l : List α) (f : α → List GraphOp) :
    added_arcs (l.flatMap f) = l.flatMap (fun a => added_arcs (f a)) := by
  induction l with
  | nil => rfl
  | cons a tl ih => simp [List.flatMap_cons, added_arcs_append, ih]

theorem added_arcs_for_range (lo hi : Nat) (body : Nat → List GraphOp) :
    added_arcs (for_range lo hi body) =
      (List.range' lo (hi - lo)).flatMap (fun z => added_arcs (body z)) :=
  added_arcs_flatMap _ _

theorem added_arcs_ite (c : Prop) [Decidable c] (l : List GraphOp) :
    added_arcs (if c then l else []) = if c then added_arcs l else [] := by
  split <;> rfl

theorem flatMap_nil_const {α β : Type} (l : List α) :
    l.flatMap (fun _ => ([] : List β)) = [] := by
  induction l with
  | nil => rfl
  | cons a tl ih => simp [List.flatMap_cons, ih]

theorem added_arcs_pio (type : String) (x y : Int) :
    added_arcs (ecp5_pio_bels type x y) = [] := by
  simp [ecp5_pio_bels, added_arcs_append, added_arcs_ite, added_arcs_for_range, added_arcs,
    flatMap_nil_const]

theorem added_arcs_dcc (type : String) (x y : Int) :
    added_arcs (ecp5_dcc_bels type x y) = [] := by
  simp [ecp5_dcc_bels, added_arcs_append, added_arcs_ite, added_arcs_for_range, added_arcs,
    flatMap_nil_const]

theorem added_arcs_ram (type : String) (x y : Int) :
    added_arcs (ecp5_ram_bels type x y) = [] := by
  simp [ecp5_ram_bels, added_arcs_append, added_arcs_ite, added_arcs]

theorem added_arcs_dsp (type : String) (x y : Int) :
    added_arcs (ecp5_dsp_bels type x y) = [] := by
  simp [ecp5_dsp_bels, added_arcs_append, added_arcs_ite, added_arcs]

theorem added_arcs_pll (type : String) (x y : Int) :
    added_arcs (ecp5_pll_bels type x y) = [] := by
  simp [ecp5_pll_bels, added_arcs_append, added_arcs_ite, added_arcs]

theorem added_arcs_dcu (type : String) (x y : Int) :
    added_arcs (ecp5_dcu_bels type x y) = [] := by
  simp [ecp5_dcu_bels, added_arcs_append, added_arcs_ite, added_arcs_for_range, added_arcs,
    flatMap_nil_const]

theorem added_arcs_config (type : String) (x y : Int) :
    added_arcs (ecp5_config_bels type x y) = [] := by
  simp [ecp5_config_bels, ecp5_eclk_l, ecp5_eclk_r, added_arcs_append, added_arcs_ite,
    added_arcs]

/-- Only the SLICE part of the loop body inserts arcs. -/
theorem added_arcs_tile (info : ChipInfo) (incl : Bool) (tile : TileInfo) :
    added_arcs (ecp5_tile_ops info incl tile) =
      added_arcs (ecp5_slice_bels incl tile.type tile.col tile.row) := by
  simp [ecp5_tile_ops, TileInfo.get_row_col, added_arcs_append, added_arcs_pio,
    added_arcs_dcc, added_arcs_ram, added_arcs_dsp, added_arcs_pll, added_arcs_dcu,
    added_arcs_config, added_arcs]

theorem added_arcs_slice_off (type : String) (x y : Int) :
    added_arcs (ecp5_slice_bels false type x y) = [] := by
  simp [ecp5_slice_bels, added_arcs_ite, added_arcs_for_range, added_arcs_append, added_arcs,
    flatMap_nil_const]

theorem added_arcs_slice_on (x y : Int) :
    added_arcs (ecp5_slice_bels true "PLC2" x y) =
      crossbar_triples.map (fun t => lutperm_arc ⟨x, y⟩ "PLC2" t.1 t.2.1 t.2.2) := by
  rfl

theorem crossbar_triples_range : ∀ t ∈ crossbar_triples,
    t.1 < 8 ∧ t.2.1 < 4 ∧ t.2.2 < 4 ∧ t.2.1 ≠ t.2.2 := by
  decide

theorem crossbar_triples_per_lut : ∀ k < 8,
    (crossbar_triples.filter (fun t => t.1 = k)).length = 12 ∧
      ∀ i < 4, ∀ j < 4, i ≠ j → crossbar_triples.count (k, i, j) = 1 := by
  decide

theorem count_map_of_inj_on {α β : Type} [BEq α] [LawfulBEq α] [BEq β] [LawfulBEq β] (f : α → β)
    (l : List α) (a : α) (h : ∀ t ∈ l, f t = f a → t = a) :
    (l.map f).count (f a) = l.count a := by
  induction l with
  | nil => rfl
  | cons hd tl ih =>
    have ih' := ih (fun t ht => h t (List.mem_cons_of_mem _ ht))
    by_cases hx : hd = a
    · subst hx
      simp [ih']
    · have hf : f hd ≠ f a := fun hfa => hx (h hd (List.mem_cons_self _ _) hfa)
      simp [List.count_cons, ih', hx, hf]

theorem tile_ops_block {R G : Type} (c : Chip R G) (incl : Bool) (e : String × Tile R)
    (he : e ∈ c.tiles.entries) :
    ∃ pre post, c.get_routing_graph_ecp5 incl =
      pre ++ ecp5_tile_ops c.info incl e.2.info ++ post := by
  obtain ⟨l₁, l₂, hl⟩ := List.append_of_mem he
  refine ⟨l₁.flatMap (fun t => ecp5_tile_ops c.info incl t.2.info),
    l₂.flatMap (fun t => ecp5_tile_ops c.info incl t.2.info), ?_⟩
  unfold Chip.get_routing_graph_ecp5
  rw [hl, List.flatMap_append, List.flatMap_cons, List.append_assoc]

theorem added_arcs_graph_off {R G : Type} (c : Chip R G) :
    added_arcs (c.get_routing_graph_ecp5 false) = [] := by
  unfold Chip.get_routing_graph_ecp5
  rw [added_arcs_flatMap]
  simp only [added_arcs_tile, added_arcs_slice_off]
  exact flatMap_nil_const _

theorem lutperm_arc_inj_on (loc : Location) (type : String) (t a : Nat × Nat × Nat)
    (ht : t ∈ crossbar_triples) (ha : a.1 < 8 ∧ a.2.1 < 4 ∧ a.2.2 < 4)
    (h : lutperm_arc loc type t.1 t.2.1 t.2.2 = lutperm_arc loc type a.1 a.2.1 a.2.2) :
    t = a := by
  have hf : lutperm_pack t.1 t.2.1 t.2.2 = lutperm_pack a.1 a.2.1 a.2.2 :=
    congrArg RoutingArc.lutperm_flags h
  obtain ⟨h1, h2, h3, _⟩ := crossbar_triples_range t ht
  have e1 := (lutperm_unpack_pack t.1 h1 t.2.1 h2 t.2.2 h3).1
  have e2 := (lutperm_unpack_pack a.1 ha.1 a.2.1 ha.2.1 a.2.2 ha.2.2).1
  rw [hf, e2] at e1
  exact e1.symm

/-- C7: the calls of `get_routing_graph_ecp5` for a tile of type `PLC2` are a
block of the calls for the chip. Without `include_lutperm_pips` the block, and
the whole graph, has no `add_arc`. With it the block has 96 arcs, each of them
not configurable and the pseudo-pip of some LUT `k` in `0..7` and some ordered
pair `i ≠ j` of inputs in `0..3`; for every `k` in `0..7` exactly 12 arcs belong
to LUT `k`, and every ordered pair of distinct inputs has exactly one arc. -/
theorem lutperm_crossbar_arcs {R G : Type} (c : Chip R G) (e : String × Tile R)
    (he : e ∈ c.tiles.entries) (hty : e.2.info.type = "PLC2") :
    (∀ incl, ∃ pre post, c.get_routing_graph_ecp5 incl =
      pre ++ ecp5_tile_ops c.info incl e.2.info ++ post) ∧
    added_arcs (c.get_routing_graph_ecp5 false) = [] ∧
    added_arcs (ecp5_tile_ops c.info false e.2.info) = [] ∧
    (added_arcs (ecp5_tile_ops c.info true e.2.info)).length = 96 ∧
    (∀ a ∈ added_arcs (ecp5_tile_ops c.info true e.2.info),
      a.configurable = false ∧
      ∃ k i j, k < 8 ∧ i < 4 ∧ j < 4 ∧ i ≠ j ∧
        a = lutperm_arc ⟨e.2.info.col, e.2.info.row⟩ "PLC2" k i j) ∧
    (∀ k < 8,
      ((added_arcs (ecp5_tile_ops c.info true e.2.info)).filter
        (fun a => (lutperm_unpack a.lutperm_flags).1 = k)).length = 12 ∧
      ∀ i < 4, ∀ j < 4, i ≠ j →
        (added_arcs (ecp5_tile_ops c.info true e.2.info)).count
          (lutperm_arc ⟨e.2.info.col, e.2.info.row⟩ "PLC2" k i j) = 1) := by
  have hon : added_arcs (ecp5_tile_ops c.info true e.2.info) =
      crossbar_triples.map
        (fun t => lutperm_arc ⟨e.2.info.col, e.2.info.row⟩ "PLC2" t.1 t.2.1 t.2.2) := by
    rw [added_arcs_tile, hty, added_arcs_slice_on]
  refine ⟨fun incl => tile_ops_block c incl e he, added_arcs_graph_off c, ?_, ?_, ?_, ?_⟩
  · rw [added_arcs_tile, added_arcs_slice_off]
  · rw [hon, List.length_map]
    decide
  · intro a ha
    rw [hon] at ha
    obtain ⟨t, ht, rfl⟩ := List.mem_map.mp ha
    obtain ⟨h1, h2, h3, h4⟩ := crossbar_triples_range t ht
    exact ⟨rfl, t.1, t.2.1, t.2.2, h1, h2, h3, h4, rfl⟩
  · intro k hk
    rw [hon]
    constructor
    · rw [List.filter_map, List.length_map, ← (crossbar_triples_per_lut k hk).1]
      congr 1
      apply List.filter_congr
      intro t ht
      obtain ⟨h1, h2, h3, _⟩ := crossbar_triples_range t ht
      have e1 := (lutperm_unpack_pack t.1 h1 t.2.1 h2 t.2.2 h3).1
      simp only [Function.comp, lutperm_arc, e1]
    · intro i hi j hj hij
      have hc := count_map_of_inj_on
        (fun t : Nat × Nat × Nat =>
          lutperm_arc ⟨e.2.info.col, e.2.info.row⟩ "PLC2" t.1 t.2.1 t.2.2)
        crossbar_triples (k, i, j)
        (fun t ht h => lutperm_arc_inj_on _ _ t (k, i, j) ht ⟨hk, hi, hj⟩ h)
      simp only at hc
      rw [hc]
      exact (crossbar_triples_per_lut k hk).2 i hi j hj hij

/-! ## Lemmas on `std::map` -/

theorem lookup_eq_none_iff {β : Type} (l : List (String × β)) (k : String) :
    l.lookup k = none ↔ k ∉ l.map Prod.fst := by
  induction l with
  | nil => simp
  | cons hd tl ih =>
    obtain ⟨k', v'⟩ := hd
    by_cases h : k = k'
    · subst h
      simp [List.lookup_cons]
    · have hb : (k == k') = false := by simpa using h
      simp [List.lookup_cons, hb, ih, h]

theorem lookup_eq_some_iff {β : Type} (l : List (String × β)) (hl : KeySorted l)
    (k : String) (v : β) : l.lookup k = some v ↔ (k, v) ∈ l := by
  induction l with
  | nil => simp
  | cons hd tl ih =>
    obtain ⟨k', v'⟩ := hd
    have hpw := List.pairwise_cons.mp hl
    by_cases h : k = k'
    · subst h
      simp only [List.lookup_cons, beq_self_eq_true, Option.some.injEq, List.mem_cons,
        Prod.mk.injEq, true_and]
      constructor
      · intro hv
        exact Or.inl hv.symm
      · rintro (hv | hmem)
        · exact hv.symm
        · exact absurd (hpw.1 _ hmem) (keyLt_irrefl k)
    · have hb : (k == k') = false := by simpa using h
      simp [List.lookup_cons, hb, ih hpw.2, h]

theorem StdMap.ext {β : Type} (m₁ m₂ : StdMap β) (h : m₁.entries = m₂.entries) : m₁ = m₂ := by
  cases m₁
  cases m₂
  cases h
  rfl

theorem StdMap.find_eq_some_iff {β : Type} (m : StdMap β) (k : String) (v : β) :
    m.find k = some v ↔ (k, v) ∈ m.entries :=
  lookup_eq_some_iff m.entries m.sorted k v

theorem StdMap.find_eq_none_iff {β : Type} (m : StdMap β) (k : String) :
    m.find k = none ↔ k ∉ m.keys :=
  lookup_eq_none_iff m.entries k

theorem StdMap.mem_keys_iff {β : Type} (m : StdMap β) (k : String) :
    k ∈ m.keys ↔ ∃ v, m.find k = some v := by
  constructor
  · intro hk
    cases hf : m.find k with
    | none => exact absurd hk ((m.find_eq_none_iff k).mp hf)
    | some v => exact ⟨v, rfl⟩
  · rintro ⟨v, hv⟩
    exact List.mem_map.mpr ⟨(k, v), (m.find_eq_some_iff k v).mp hv, rfl⟩

theorem StdMap.mem_set {β : Type} (m : StdMap β) (k : String) (v : β) (e : String × β) :
    e ∈ (m.set k v).entries ↔ e = (k, v) ∨ (e ∈ m.entries ∧ e.1 ≠ k) :=
  mem_insertRaw k v m.entries m.sorted e

theorem StdMap.find_set {β : Type} (m : StdMap β) (k : String) (v : β) (n : String) :
    (m.set k v).find n = if n = k then some v else m.find n := by
  by_cases h : n = k
  · subst h
    rw [if_pos rfl, StdMap.find_eq_some_iff, StdMap.mem_set]
    exact Or.inl rfl
  · rw [if_neg h]
    apply Option.ext
    intro w
    rw [Option.mem_def, Option.mem_def, StdMap.find_eq_some_iff, StdMap.find_eq_some_iff,
      StdMap.mem_set]
    constructor
    · rintro (heq | ⟨hmem, _⟩)
      · exact absurd (congrArg Prod.fst heq) h
      · exact hmem
    · intro hmem
      exact Or.inr ⟨hmem, h⟩

theorem StdMap.keys_set {β : Type} (m : StdMap β) (k : String) (v : β) (n : String) :
    n ∈ (m.set k v).keys ↔ n = k ∨ n ∈ m.keys := by
  rw [StdMap.mem_keys_iff, StdMap.mem_keys_iff]
  simp only [StdMap.find_set]
  by_cases h : n = k
  · simp [h]
  · simp [h]

theorem keySorted_singleton_of_mem {β : Type} (l : List (String × β)) (hl : KeySorted l)
    (x : String × β) (h : ∀ e, e ∈ l ↔ e = x) : l = [x] := by
  cases l with
  | nil => exact absurd ((h x).mpr rfl) (List.not_mem_nil x)
  | cons hd tl =>
    have hhd : hd = x := (h hd).mp (List.mem_cons_self _ _)
    cases tl with
    | nil => rw [hhd]
    | cons y ys =>
      have hy : y = x := (h y).mp (List.mem_cons_of_mem _ (List.mem_cons_self _ _))
      have hlt := (List.pairwise_cons.mp hl).1 y (List.mem_cons_self _ _)
      rw [hhd, hy] at hlt
      exact absurd hlt (keyLt_irrefl _)

/-! ## The chip diff -/

theorem diff_step_ok {R G D : Type} (ops : CramOps R D) (b : Chip R G) (delta : StdMap D)
    (tile : String × Tile R) (bt : Tile R) (h : b.tiles.find tile.1 = some bt) :
    diff_step ops b delta tile =
      .ok (if ops.empty (ops.sub tile.2.cram bt.cram) = true then delta
           else delta.set tile.1 (ops.sub tile.2.cram bt.cram)) := by
  unfold diff_step StdMap.atKey
  rw [h]
  simp only [bind, Except.bind]
  cases hc : ops.empty (ops.sub tile.2.cram bt.cram) <;> simp <;> rfl

theorem diff_step_error {R G D : Type} (ops : CramOps R D) (b : Chip R G) (delta : StdMap D)
    (tile : String × Tile R) (h : b.tiles.find tile.1 = none) :
    diff_step ops b delta tile = .error .out_of_range := by
  unfold diff_step StdMap.atKey
  rw [h]
  rfl

theorem diff_fold_error {R G D : Type} (ops : CramOps R D) (b : Chip R G)
    (l : List (String × Tile R)) (delta0 : StdMap D)
    (h : ∃ e ∈ l, e.1 ∉ b.tiles.keys) :
    l.foldlM (diff_step ops b) delta0 = .error .out_of_range := by
  induction l generalizing delta0 with
  | nil =>
    obtain ⟨e, he, _⟩ := h
    exact absurd he (List.not_mem_nil e)
  | cons hd tl ih =>
    rw [List.foldlM_cons]
    cases hf : b.tiles.find hd.1 with
    | none =>
      rw [diff_step_error ops b delta0 hd hf]
      rfl
    | some bt =>
      rw [diff_step_ok ops b delta0 hd bt hf]
      obtain ⟨e, he, hne⟩ := h
      rcases List.mem_cons.mp he with heq | hmem
      · subst heq
        exact absurd ((b.tiles.mem_keys_iff e.1).mpr ⟨bt, hf⟩) hne
      · exact ih _ ⟨e, hmem, hne⟩

theorem diff_fold_ok {R G D : Type} (ops : CramOps R D) (b : Chip R G)
    (l : List (String × Tile R)) (delta0 : StdMap D) (hl : KeySorted l)
    (hb : ∀ e ∈ l, e.1 ∈ b.tiles.keys) (hd0 : ∀ e ∈ l, e.1 ∉ delta0.keys) :
    ∃ delta, l.foldlM (diff_step ops b) delta0 = .ok delta ∧
      ∀ n d, (n, d) ∈ delta.entries ↔
        (n, d) ∈ delta0.entries ∨
        ∃ t bt, (n, t) ∈ l ∧ b.tiles.find n = some bt ∧
          d = ops.sub t.cram bt.cram ∧ ops.empty d = false := by
  induction l generalizing delta0 with
  | nil =>
    refine ⟨delta0, rfl, fun n d => ?_⟩
    simp
  | cons hd tl ih =>
    have hpw := List.pairwise_cons.mp hl
    obtain ⟨bt, hbt⟩ := (b.tiles.mem_keys_iff hd.1).mp (hb hd (List.mem_cons_self _ _))
    have hfresh : hd.1 ∉ delta0.keys := hd0 hd (List.mem_cons_self _ _)
    rw [List.foldlM_cons, diff_step_ok ops b delta0 hd bt hbt]
    have htl_ne : ∀ e ∈ tl, e.1 ≠ hd.1 := fun e he heq => by
      have := hpw.1 e he
      rw [heq] at this
      exact keyLt_irrefl _ this
    by_cases hc : ops.empty (ops.sub hd.2.cram bt.cram) = true
    · rw [if_pos hc]
      obtain ⟨delta, hfold, hmem⟩ := ih delta0 hpw.2
        (fun e he => hb e (List.mem_cons_of_mem _ he))
        (fun e he => hd0 e (List.mem_cons_of_mem _ he))
      refine ⟨delta, hfold, fun n d => ?_⟩
      rw [hmem n d]
      constructor
      · rintro (h | ⟨t, bt', ht, hrest⟩)
        · exact Or.inl h
        · exact Or.inr ⟨t, bt', List.mem_cons_of_mem _ ht, hrest⟩
      · rintro (h | ⟨t, bt', ht, hfind, hd', hne⟩)
        · exact Or.inl h
        · rcases List.mem_cons.mp ht with heq | htl
          · have h1 : n = hd.1 := congrArg Prod.fst heq
            have h2 : t = hd.2 := congrArg Prod.snd heq
            subst h2
            rw [h1, hbt] at hfind
            cases hfind
            rw [hd', hc] at hne
            cases hne
          · exact Or.inr ⟨t, bt', htl, hfind, hd', hne⟩
    · rw [if_neg hc]
      obtain ⟨delta, hfold, hmem⟩ := ih (delta0.set hd.1 (ops.sub hd.2.cram bt.cram)) hpw.2
        (fun e he => hb e (List.mem_cons_of_mem _ he))
        (fun e he hk => by
          rcases (StdMap.keys_set _ _ _ _).mp hk with h | h
          · exact htl_ne e he h
          · exact hd0 e (List.mem_cons_of_mem _ he) h)
      refine ⟨delta, hfold, fun n d => ?_⟩
      rw [hmem n d, StdMap.mem_set]
      constructor
      · rintro ((heq | ⟨h, _⟩) | ⟨t, bt', ht, hrest⟩)
        · simp only [Prod.mk.injEq] at heq
          refine Or.inr ⟨hd.2, bt, ?_, ?_, heq.2, ?_⟩
          · rw [heq.1]
            exact List.mem_cons_self _ _
          · rw [heq.1]
            exact hbt
          · rw [heq.2]
            simpa using hc
        · exact Or.inl h
        · exact Or.inr ⟨t, bt', List.mem_cons_of_mem _ ht, hrest⟩
      · rintro (h | ⟨t, bt', ht, hfind, hd', hne⟩)
        · refine Or.inl (Or.inr ⟨h, fun hk => hfresh ?_⟩)
          simp only at hk
          rw [← hk]
          exact List.mem_map.mpr ⟨(n, d), h, rfl⟩
        · rcases List.mem_cons.mp ht with heq | htl
          · have h1 : n = hd.1 := congrArg Prod.fst heq
            have h2 : t = hd.2 := congrArg Prod.snd heq
            subst h2
            rw [h1, hbt] at hfind
            cases hfind
            exact Or.inl (Or.inl (by rw [h1, hd']))
          · exact Or.inr ⟨t, bt', htl, hfind, hd', hne⟩

theorem diff_step_congr {R G D : Type} (ops : CramOps R D) (b b' : Chip R G)
    (delta : StdMap D) (tile : String × Tile R)
    (h : b'.tiles.find tile.1 = b.tiles.find tile.1) :
    diff_step ops b' delta tile = diff_step ops b delta tile := by
  unfold diff_step StdMap.atKey
  rw [h]

theorem diff_fold_congr {R G D : Type} (ops : CramOps R D) (b b' : Chip R G)
    (l : List (String × Tile R)) (delta0 : StdMap D)
    (h : ∀ e ∈ l, b'.tiles.find e.1 = b.tiles.find e.1) :
    l.foldlM (diff_step ops b') delta0 = l.foldlM (diff_step ops b) delta0 := by
  induction l generalizing delta0 with
  | nil => rfl
  | cons hd tl ih =>
    rw [List.foldlM_cons, List.foldlM_cons,
      diff_step_congr ops b b' delta0 hd (h hd (List.mem_cons_self _ _))]
    congr 1
    funext d
    exact ih d (fun e he => h e (List.mem_cons_of_mem _ he))

theorem mem_keys_of_mem_entries {β : Type} (m : StdMap β) (e : String × β)
    (he : e ∈ m.entries) : e.1 ∈ m.keys :=
  List.mem_map.mpr ⟨e, he, rfl⟩

/-- When every tile name of `a` is in `b`, the diff returns the map that holds,
for the tiles of `a` whose difference is not empty, that difference. -/
theorem operator_sub_spec {R G D : Type} (ops : CramOps R D) (a b : Chip R G)
    (h : ∀ n ∈ a.tiles.keys, n ∈ b.tiles.keys) :
    ∃ delta, operator_sub ops a b = .ok delta ∧
      ∀ n d, delta.find n = some d ↔
        ∃ x y, a.tiles.find n = some x ∧ b.tiles.find n = some y ∧
          d = ops.sub x.cram y.cram ∧ ops.empty d = false := by
  obtain ⟨delta, hfold, hmem⟩ := diff_fold_ok ops b a.tiles.entries StdMap.empty
    a.tiles.sorted (fun e he => h e.1 (mem_keys_of_mem_entries _ e he))
    (fun e _ hk => by simp [StdMap.keys, StdMap.empty] at hk)
  refine ⟨delta, hfold, fun n d => ?_⟩
  rw [StdMap.find_eq_some_iff, hmem n d]
  constructor
  · rintro (h0 | ⟨t, bt, ht, hrest⟩)
    · simp [StdMap.empty] at h0
    · exact ⟨t, bt, (a.tiles.find_eq_some_iff n t).mpr ht, hrest⟩
  · rintro ⟨x, y, hx, hrest⟩
    exact Or.inr ⟨x, y, (a.tiles.find_eq_some_iff n x).mp hx, hrest⟩

theorem operator_sub_error {R G D : Type} (ops : CramOps R D) (a b : Chip R G)
    (h : ∃ n ∈ a.tiles.keys, n ∉ b.tiles.keys) :
    operator_sub ops a b = .error .out_of_range := by
  obtain ⟨n, hn, hnb⟩ := h
  obtain ⟨e, he, rfl⟩ := List.mem_map.mp hn
  exact diff_fold_error ops b a.tiles.entries StdMap.empty ⟨e, he, hnb⟩

/-- C2: when the difference of a bit region with itself is empty, `a - a`
returns the empty `ChipDelta`, for every chip `a`. -/
theorem diff_self_empty {R G D : Type} (ops : CramOps R D)
    (hself : ∀ r, ops.empty (ops.sub r r) = true) (a : Chip R G) :
    operator_sub ops a a = .ok StdMap.empty := by
  obtain ⟨delta, hok, hfind⟩ := operator_sub_spec ops a a (fun _ hn => hn)
  rw [hok]
  congr 1
  apply StdMap.ext
  apply List.eq_nil_iff_forall_not_mem.mpr
  rintro ⟨n, d⟩ hmem
  obtain ⟨x, y, hx, hy, hd, hne⟩ := (hfind n d).mp ((delta.find_eq_some_iff n d).mpr hmem)
  rw [hx] at hy
  cases hy
  rw [hd, hself] at hne
  cases hne

/-- C2 on the sample chip with the region contents 5 and 9. -/
theorem diff_self_empty_witness :
    operator_sub xor_ops (sample_chip 5 9) (sample_chip 5 9) = .ok StdMap.empty :=
  diff_self_empty xor_ops (fun r => by simp [xor_ops]) (sample_chip 5 9)

/-- C3: when every tile name of `a` is a tile name of `b` (as it is when both
have the same names), `a - b` returns a map in which a name is a key exactly
when the difference of the two regions of that name is not empty, and the value
is that difference. If moreover the collaborator finds a difference empty
exactly for equal regions and the regions of `a` and `b` are equal for every
tile except `t`, the map has the single entry `t` with the difference of the
regions of `t`, which is not empty. -/
theorem diff_single_tile {R G D : Type} (ops : CramOps R D) (a b : Chip R G)
    (hnames : ∀ n ∈ a.tiles.keys, n ∈ b.tiles.keys) :
    ∃ delta, operator_sub ops a b = .ok delta ∧
      (∀ n, n ∈ delta.keys ↔
        ∃ x y, a.tiles.find n = some x ∧ b.tiles.find n = some y ∧
          ops.empty (ops.sub x.cram y.cram) = false) ∧
      (∀ n x y, a.tiles.find n = some x → b.tiles.find n = some y →
        ops.empty (ops.sub x.cram y.cram) = false →
        delta.find n = some (ops.sub x.cram y.cram)) ∧
      ((∀ r s, ops.empty (ops.sub r s) = true ↔ r = s) →
        ∀ t x y, a.tiles.find t = some x → b.tiles.find t = some y → x.cram ≠ y.cram →
          (∀ e ∈ a.tiles.entries, e.1 ≠ t →
            (b.tiles.find e.1).map Tile.cram = some e.2.cram) →
          delta.entries = [(t, ops.sub x.cram y.cram)] ∧
            ops.empty (ops.sub x.cram y.cram) = false) := by
  obtain ⟨delta, hok, hfind⟩ := operator_sub_spec ops a b hnames
  refine ⟨delta, hok, fun n => ?_, fun n x y hx hy hne => ?_, ?_⟩
  · rw [StdMap.mem_keys_iff]
    constructor
    · rintro ⟨d, hd⟩
      obtain ⟨x, y, hx, hy, hd', hne⟩ := (hfind n d).mp hd
      exact ⟨x, y, hx, hy, by rw [← hd']; exact hne⟩
    · rintro ⟨x, y, hx, hy, hne⟩
      exact ⟨_, (hfind n _).mpr ⟨x, y, hx, hy, rfl, hne⟩⟩
  · exact (hfind n _).mpr ⟨x, y, hx, hy, rfl, hne⟩
  · intro hsound t x y hx hy hxy hothers
    have hne : ops.empty (ops.sub x.cram y.cram) = false := by
      cases hc : ops.empty (ops.sub x.cram y.cram) with
      | false => rfl
      | true => exact absurd ((hsound _ _).mp hc) hxy
    refine ⟨?_, hne⟩
    apply keySorted_singleton_of_mem delta.entries delta.sorted
    rintro ⟨n, d⟩
    rw [← StdMap.find_eq_some_iff, hfind n d]
    constructor
    · rintro ⟨x', y', hx', hy', hd, hne'⟩
      by_cases hnt : n = t
      · subst hnt
        rw [hx] at hx'
        rw [hy] at hy'
        cases hx'
        cases hy'
        rw [hd]
      · have hmem := (a.tiles.find_eq_some_iff n x').mp hx'
        have := hothers (n, x') hmem hnt
        simp only [hy', Option.map_some', Option.some.injEq] at this
        rw [hd, this, (hsound _ _).mpr rfl] at hne'
        cases hne'
    · intro heq
      simp only [Prod.mk.injEq] at heq
      obtain ⟨h1, h2⟩ := heq
      subst h1
      exact ⟨x, y, hx, hy, h2, by rw [h2]; exact hne⟩

/-- C4: if some tile name of `a` is absent from `b`, `a - b` throws (the
`std::out_of_range` of the unchecked lookup) and returns no `ChipDelta`; if
every tile name of `a` is in `b`, `a - b` returns a `ChipDelta`. -/
theorem diff_missing_tile_fails {R G D : Type} (ops : CramOps R D) (a b : Chip R G) :
    ((∃ n ∈ a.tiles.keys, n ∉ b.tiles.keys) →
      operator_sub ops a b = .error .out_of_range) ∧
    ((∀ n ∈ a.tiles.keys, n ∈ b.tiles.keys) →
      ∃ delta, operator_sub ops a b = .ok delta) := by
  refine ⟨operator_sub_error ops a b, fun h => ?_⟩
  obtain ⟨delta, hok, _⟩ := operator_sub_spec ops a b h
  exact ⟨delta, hok⟩

/-- C5 as amended: `a - b` fails exactly when some tile name of `a` is absent
from `b`, and the exception is then `std::out_of_range`; the outcome depends
on `b` only through the tiles named in `a`, so tiles that only `b` has are
never looked at. -/
theorem diff_fails_iff {R G D : Type} (ops : CramOps R D) (a b : Chip R G) :
    ((∃ e, operator_sub ops a b = .error e) ↔ ∃ n ∈ a.tiles.keys, n ∉ b.tiles.keys) ∧
    (∀ e, operator_sub ops a b = .error e → e = .out_of_range) ∧
    (∀ b' : Chip R G, (∀ n ∈ a.tiles.keys, b'.tiles.find n = b.tiles.find n) →
      operator_sub ops a b' = operator_sub ops a b) := by
  by_cases h : ∃ n ∈ a.tiles.keys, n ∉ b.tiles.keys
  · have herr := operator_sub_error ops a b h
    refine ⟨⟨fun _ => h, fun _ => ⟨_, herr⟩⟩, fun e he => ?_, fun b' hb' => ?_⟩
    · rw [herr] at he
      cases he
      rfl
    · exact diff_fold_congr ops b b' a.tiles.entries StdMap.empty
        (fun e he => hb' e.1 (mem_keys_of_mem_entries _ e he))
  · have hall : ∀ n ∈ a.tiles.keys, n ∈ b.tiles.keys := fun n hn => by
      by_contra hc
      exact h ⟨n, hn, hc⟩
    obtain ⟨delta, hok, _⟩ := operator_sub_spec ops a b hall
    refine ⟨⟨fun ⟨e, he⟩ => ?_, fun h' => absurd h' h⟩, fun e he => ?_, fun b' hb' => ?_⟩
    · rw [hok] at he
      cases he
    · rw [hok] at he
      cases he
    · exact diff_fold_congr ops b b' a.tiles.entries StdMap.empty
        (fun e he => hb' e.1 (mem_keys_of_mem_entries _ e he))

/-- C3 on two sample chips that differ in the region of `R2C4:PLC2` alone
(9 against 12): the diff is the single entry of that tile with the value 5. -/
theorem diff_single_tile_witness :
    (∀ n ∈ (sample_chip 5 9).tiles.keys, n ∈ (sample_chip 5 12).tiles.keys) ∧
    ∃ delta, operator_sub xor_ops (sample_chip 5 9) (sample_chip 5 12) = .ok delta ∧
      delta.entries = [("R2C4:PLC2", 5)] ∧ xor_ops.empty 5 = false := by
  refine ⟨by decide, ?_⟩
  obtain ⟨delta, hok, _, _, hsingle⟩ :=
    diff_single_tile xor_ops (sample_chip 5 9) (sample_chip 5 12) (by decide)
  exact ⟨delta, hok, hsingle (fun r s => by simp [xor_ops]) "R2C4:PLC2"
    ⟨tile_r2c4, 9⟩ ⟨tile_r2c4, 12⟩ rfl rfl (by decide) (by decide)⟩

/-- C4 on sample chips: the diff of the two-tile chip against the one-tile
chip throws, the diff of the one-tile chip against the two-tile chip returns. -/
theorem diff_missing_tile_fails_witness :
    operator_sub xor_ops (sample_chip 5 9) (small_chip 5) = .error .out_of_range ∧
    ∃ delta, operator_sub xor_ops (small_chip 5) (sample_chip 5 9) = .ok delta :=
  ⟨(diff_missing_tile_fails xor_ops (sample_chip 5 9) (small_chip 5)).1
      ⟨"R2C4:PLC2", by decide, by decide⟩,
    (diff_missing_tile_fails xor_ops (small_chip 5) (sample_chip 5 9)).2 (by decide)⟩

/-- C5 fails: `R2C4:PLC2` is a tile of the second chip and not of the first,
yet the diff returns (the empty `ChipDelta`) instead of failing. -/
theorem diff_layout_mismatch_counterexample :
    ("R2C4:PLC2" ∈ (sample_chip 5 9).tiles.keys ∧ "R2C4:PLC2" ∉ (small_chip 5).tiles.keys) ∧
    operator_sub xor_ops (small_chip 5) (sample_chip 5 9) = .ok StdMap.empty :=
  ⟨⟨by decide, by decide⟩, rfl⟩

/-- C7 on the sample chip: the tile `R2C3:PLC2` gets 96 arcs with the flag and
none without. -/
theorem lutperm_crossbar_arcs_witness :
    (added_arcs (ecp5_tile_ops sample_info true tile_r2c3)).length = 96 ∧
    added_arcs (ecp5_tile_ops sample_info false tile_r2c3) = [] :=
  have h := lutperm_crossbar_arcs (sample_chip 5 9) ("R2C3:PLC2", ⟨tile_r2c3, 5⟩)
    (List.mem_cons_self _ _) rfl
  ⟨h.2.2.2.1, h.2.2.1⟩

/-! ## Chip construction -/

theorem grow_eq {α : Type} (v : List α) (n : Nat) (d : α) :
    (if (v.length : Int) ≤ (n : Int) then vecResize v ((n : Int) + 1).toNat d else v) =
      growN v n d := by
  unfold growN vecResize
  have h1 : ((n : Int) + 1).toNat = n + 1 := by omega
  by_cases h : v.length ≤ n
  · have h' : (v.length : Int) ≤ (n : Int) := by exact_mod_cast h
    rw [if_pos h, if_pos h', h1, List.take_of_length_le (by omega)]
  · have h' : ¬ (v.length : Int) ≤ (n : Int) := by exact_mod_cast h
    rw [if_neg h, if_neg h']

theorem growN_length {α : Type} (v : List α) (n : Nat) (d : α) : n < (growN v n d).length := by
  unfold growN
  split
  · simp
    omega
  · omega

theorem growN_getD {α : Type} (v : List α) (n k : Nat) (d : α) :
    (growN v n d).getD k d = v.getD k d := by
  unfold growN
  split
  · simp only [List.getD_eq_getElem?_getD, List.getElem?_append, List.getElem?_replicate]
    by_cases hk : k < v.length
    · simp [hk]
    · rw [if_neg hk, List.getElem?_eq_none (by omega)]
      split <;> rfl
  · rfl

theorem vecAt_nat {α : Type} (v : List α) (n : Nat) (d : α) (h : n < v.length) :
    vecAt v (n : Int) = .ok (v.getD n d) := by
  unfold vecAt
  have h0 : (0 : Int) ≤ (n : Int) := by omega
  rw [if_pos h0]
  simp [List.get?_eq_getElem?, List.getElem?_eq_getElem h, List.getD_eq_getElem?_getD]

theorem vecModifyAt_nat {α : Type} (v : List α) (n : Nat) (d : α) (h : n < v.length)
    (f : α → Except Error α) (y : α) (hf : f (v.getD n d) = .ok y) :
    vecModifyAt v (n : Int) f = .ok (v.set n y) := by
  unfold vecModifyAt
  rw [vecAt_nat v n d h]
  simp only [bind, Except.bind, hf]
  rfl

theorem add_tile_eq {R G : Type} (db : Database R G) (info : ChipInfo) (st : TileIndex R)
    (tile : TileInfo) (r c : Nat) (hr : tile.row = r) (hc : tile.col = c) :
    Chip.add_tile db info st tile =
      .ok (st.1.set tile.name ⟨tile, db.make_view info tile⟩,
        push_at st.2 r c (tile.name, tile.type)) := by
  unfold Chip.add_tile
  simp only [TileInfo.get_row_col, hr, hc, grow_eq]
  have h1 := growN_length st.2 r []
  rw [vecModifyAt_nat (growN st.2 r []) r [] h1 _ (growN ((growN st.2 r []).getD r []) c []) rfl]
  simp only [bind, Except.bind]
  have h2 := growN_length ((growN st.2 r []).getD r []) c []
  have h3 : r < ((growN st.2 r []).set r (growN ((growN st.2 r []).getD r []) c [])).length := by
    rw [List.length_set]
    exact h1
  have h4 : ((growN st.2 r []).set r (growN ((growN st.2 r []).getD r []) c [])).getD r [] =
      growN ((growN st.2 r []).getD r []) c [] := by
    rw [List.getD_eq_getElem?_getD, List.getElem?_set]
    simp [h1]
  rw [vecModifyAt_nat _ r [] h3 _
    ((growN ((growN st.2 r []).getD r []) c []).set c
      ((growN ((growN st.2 r []).getD r []) c []).getD c [] ++ [(tile.name, tile.type)]))
    (by rw [h4]; exact vecModifyAt_nat _ c [] h2 _ _ rfl)]
  simp only [List.set_set]
  rfl


theorem getD_set {α : Type} (l : List α) (i j : Nat) (a d : α) :
    (l.set i a).getD j d = if i = j then (if i < l.length then a else d) else l.getD j d := by
  rw [List.getD_eq_getElem?_getD, List.getElem?_set, List.getD_eq_getElem?_getD]
  by_cases h : i = j
  · simp only [h, if_true]
    split <;> rfl
  · simp only [h, if_false]

theorem growN_getElem?_getD {α : Type} (v : List α) (n k : Nat) (d : α) :
    (growN v n d)[k]?.getD d = v[k]?.getD d := by
  rw [← List.getD_eq_getElem?_getD, ← List.getD_eq_getElem?_getD]
  exact growN_getD v n k d

theorem getElem?_getD_set {α : Type} (l : List α) (i j : Nat) (a d : α) :
    (l.set i a)[j]?.getD d =
      if i = j then (if i < l.length then a else d) else l[j]?.getD d := by
  rw [← List.getD_eq_getElem?_getD, ← List.getD_eq_getElem?_getD]
  exact getD_set l i j a d

theorem cellOf_push_at (tal : List (List (List (String × String)))) (r c : Nat)
    (e : String × String) (r' c' : Nat) :
    cellOf (push_at tal r c e) r' c' =
      if r' = r ∧ c' = c then cellOf tal r c ++ [e] else cellOf tal r' c' := by
  unfold cellOf push_at
  have h1 := growN_length tal r []
  have h2 := growN_length ((growN tal r [])[r]?.getD []) c []
  simp only [List.getD_eq_getElem?_getD, getElem?_getD_set, h1, h2, if_true,
    growN_getElem?_getD]
  by_cases hr : r = r'
  · subst hr
    by_cases hc : c = c'
    · subst hc
      simp only [if_true, and_self, getElem?_getD_set, h2, growN_getElem?_getD]
      rw [if_pos (growN_length _ c [])]
    · have hc' : ¬ c' = c := fun h => hc h.symm
      simp only [if_true, hc', and_false, if_false, getElem?_getD_set, hc,
        growN_getElem?_getD]
  · have hr' : ¬ r' = r := fun h => hr h.symm
    simp only [hr, hr', if_false, false_and, growN_getElem?_getD]

theorem construct_loop {R G : Type} (db : Database R G) (info : ChipInfo)
    (l : List TileInfo) (st : TileIndex R) (hpos : ∀ t ∈ l, 0 ≤ t.row ∧ 0 ≤ t.col) :
    ∃ st', l.foldlM (Chip.add_tile db info) st = .ok st' ∧
      st'.1 = l.foldl (fun m t => m.set t.name ⟨t, db.make_view info t⟩) st.1 ∧
      ∀ r c : Nat, cellOf st'.2 r c = cellOf st.2 r c ++
        (l.filter (fun t => decide (t.row = (r : Int) ∧ t.col = (c : Int)))).map
          (fun t => (t.name, t.type)) := by
  induction l generalizing st with
  | nil => exact ⟨st, rfl, rfl, fun r c => by simp⟩
  | cons hd tl ih =>
    obtain ⟨hr0, hc0⟩ := hpos hd (List.mem_cons_self _ _)
    obtain ⟨r, hr⟩ := Int.eq_ofNat_of_zero_le hr0
    obtain ⟨c, hc⟩ := Int.eq_ofNat_of_zero_le hc0
    obtain ⟨st', hfold, hmap, hcell⟩ :=
      ih (st.1.set hd.name ⟨hd, db.make_view info hd⟩, push_at st.2 r c (hd.name, hd.type))
        (fun t ht => hpos t (List.mem_cons_of_mem _ ht))
    refine ⟨st', ?_, hmap, fun r' c' => ?_⟩
    · rw [List.foldlM_cons, add_tile_eq db info st hd r c hr hc]
      exact hfold
    · rw [hcell r' c', cellOf_push_at, List.filter_cons]
      by_cases h : r' = r ∧ c' = c
      · obtain ⟨h1, h2⟩ := h
        subst h1
        subst h2
        simp [hr, hc]
      · have h' : ¬ (hd.row = (r' : Int) ∧ hd.col = (c' : Int)) := by
          rw [hr, hc]
          intro hh
          exact h ⟨by exact_mod_cast hh.1.symm, by exact_mod_cast hh.2.symm⟩
        simp [h, h']

theorem foldl_set_find {R : Type} (view : TileInfo → R) (l : List TileInfo)
    (m0 : StdMap (Tile R)) (hnodup : (l.map TileInfo.name).Nodup) (n : String)
    (tile : Tile R) :
    (l.foldl (fun m t => m.set t.name ⟨t, view t⟩) m0).find n = some tile ↔
      (∃ t ∈ l, t.name = n ∧ tile = ⟨t, view t⟩) ∨
      (n ∉ l.map TileInfo.name ∧ m0.find n = some tile) := by
  induction l generalizing m0 with
  | nil => simp
  | cons hd tl ih =>
    rw [List.map_cons, List.nodup_cons] at hnodup
    rw [List.foldl_cons, ih _ hnodup.2, StdMap.find_set]
    constructor
    · rintro (⟨t, ht, hn, htile⟩ | ⟨hn, hfind⟩)
      · exact Or.inl ⟨t, List.mem_cons_of_mem _ ht, hn, htile⟩
      · by_cases h : n = hd.name
        · rw [if_pos h] at hfind
          cases hfind
          exact Or.inl ⟨hd, List.mem_cons_self _ _, h.symm, rfl⟩
        · rw [if_neg h] at hfind
          refine Or.inr ⟨?_, hfind⟩
          rw [List.map_cons, List.mem_cons]
          rintro (h' | h')
          · exact h h'
          · exact hn h'
    · rintro (⟨t, ht, hn, htile⟩ | ⟨hn, hfind⟩)
      · rcases List.mem_cons.mp ht with heq | hmem
        · subst heq
          refine Or.inr ⟨?_, ?_⟩
          · rw [← hn]
            exact hnodup.1
          · rw [if_pos hn.symm, htile]
        · exact Or.inl ⟨t, hmem, hn, htile⟩
      · rw [List.map_cons, List.mem_cons, not_or] at hn
        exact Or.inr ⟨hn.2, by rw [if_neg hn.1]; exact hfind⟩

theorem construct_ok {R G : Type} (db : Database R G) (info : ChipInfo) (chip : Chip R G)
    (h : Chip.construct db info = .ok chip) :
    ∃ st, (db.get_device_tilegrid ⟨info.family, info.name⟩).foldlM
        (Chip.add_tile db info) (StdMap.empty, []) = .ok st ∧
      chip.tiles = st.1 ∧ chip.tiles_at_location = st.2 ∧ chip.info = info := by
  unfold Chip.construct at h
  dsimp only at h
  cases hf : (db.get_device_tilegrid ⟨info.family, info.name⟩).foldlM
      (Chip.add_tile db info) (StdMap.empty, []) with
  | error e =>
    rw [hf] at h
    cases h
  | ok st =>
    rw [hf] at h
    refine ⟨st, rfl, ?_⟩
    simp only [bind, Except.bind] at h
    split at h
    · cases h
      exact ⟨rfl, rfl, rfl⟩
    · split at h
      · cases h
        exact ⟨rfl, rfl, rfl⟩
      · cases h

theorem vecAt_ok_iff {α : Type} (v : List α) (i : Int) (x : α) :
    vecAt v i = .ok x ↔ 0 ≤ i ∧ v[i.toNat]? = some x := by
  unfold vecAt
  by_cases h : 0 ≤ i
  · rw [if_pos h, List.get?_eq_getElem?]
    cases hv : v[i.toNat]? with
    | none => simp
    | some y => simp [h]
  · rw [if_neg h]
    simp [h]

theorem location_cell_ok {R G : Type} (chip : Chip R G) (row col : Int)
    (cell : List (String × String)) (h : chip.location_cell row col = .ok cell) :
    0 ≤ row ∧ 0 ≤ col ∧ cell = cellOf chip.tiles_at_location row.toNat col.toNat := by
  unfold Chip.location_cell at h
  cases hr : vecAt chip.tiles_at_location row with
  | error e =>
    rw [hr] at h
    cases h
  | ok r =>
    rw [hr] at h
    have hc : vecAt r col = .ok cell := h
    obtain ⟨h1, h2⟩ := (vecAt_ok_iff _ _ _).mp hr
    obtain ⟨h3, h4⟩ := (vecAt_ok_iff _ _ _).mp hc
    refine ⟨h1, h3, ?_⟩
    unfold cellOf
    simp [List.getD_eq_getElem?_getD, h2, h4]

theorem location_cell_of_mem {R G : Type} (chip : Chip R G) (row col : Int)
    (h1 : 0 ≤ row) (h2 : 0 ≤ col) (x : String × String)
    (hx : x ∈ cellOf chip.tiles_at_location row.toNat col.toNat) :
    chip.location_cell row col =
      .ok (cellOf chip.tiles_at_location row.toNat col.toNat) := by
  unfold cellOf at hx ⊢
  simp only [List.getD_eq_getElem?_getD] at hx ⊢
  cases hr : chip.tiles_at_location[row.toNat]? with
  | none => simp [hr] at hx
  | some r =>
    rw [hr] at hx
    simp only [Option.getD_some] at hx ⊢
    cases hc : r[col.toNat]? with
    | none => simp [hc] at hx
    | some cell =>
      unfold Chip.location_cell
      rw [(vecAt_ok_iff _ _ _).mpr ⟨h1, hr⟩]
      exact (vecAt_ok_iff _ _ _).mpr ⟨h2, by simp [hc]⟩

/-- What construction leaves in the two indexes: the name map holds the tiles
of the grid by name, and the cell of a position lists, in grid order, the name
and type of the tiles at that position. -/
theorem construct_index_facts {R G : Type} (db : Database R G) (info : ChipInfo)
    (hnodup : ((db.get_device_tilegrid ⟨info.family, info.name⟩).map TileInfo.name).Nodup)
    (hpos : ∀ t ∈ db.get_device_tilegrid ⟨info.family, info.name⟩, 0 ≤ t.row ∧ 0 ≤ t.col)
    (chip : Chip R G) (hchip : Chip.construct db info = .ok chip) :
    (∀ n tile, chip.tiles.find n = some tile ↔
      ∃ t ∈ db.get_device_tilegrid ⟨info.family, info.name⟩,
        t.name = n ∧ tile = ⟨t, db.make_view info t⟩) ∧
    (∀ r c : Nat, cellOf chip.tiles_at_location r c =
      ((db.get_device_tilegrid ⟨info.family, info.name⟩).filter
        (fun t => decide (t.row = (r : Int) ∧ t.col = (c : Int)))).map
        (fun t => (t.name, t.type))) := by
  obtain ⟨st, hfold, htiles, htal, _⟩ := construct_ok db info chip hchip
  obtain ⟨st', hfold', hmap, hcell⟩ := construct_loop db info
    (db.get_device_tilegrid ⟨info.family, info.name⟩) (StdMap.empty, []) hpos
  rw [hfold] at hfold'
  cases hfold'
  constructor
  · intro n tile
    rw [htiles, hmap, foldl_set_find (db.make_view info) _ _ hnodup]
    constructor
    · rintro (h | ⟨_, h⟩)
      · exact h
      · simp [StdMap.find, StdMap.empty] at h
    · exact Or.inl
  · intro r c
    rw [htal, hcell r c]
    simp [cellOf]

/-- C1: on a chip constructed from a tile grid with pairwise distinct names
and non-negative rows and columns, a name maps in `tiles` to a tile of type
`t` at `(r, c)` exactly when `(n, t)` is in `tiles_at_location[r][c]`; the
tiles `get_tiles_by_position(r, c)` finds by scanning the name map are exactly
the tiles that the names of that cell map to, each name of the cell once; and
where the grid index has no cell `(r, c)` the scan finds no tile. -/
theorem chip_indexes_agree {R G : Type} (db : Database R G) (info : ChipInfo)
    (hnodup : ((db.get_device_tilegrid ⟨info.family, info.name⟩).map TileInfo.name).Nodup)
    (hpos : ∀ t ∈ db.get_device_tilegrid ⟨info.family, info.name⟩, 0 ≤ t.row ∧ 0 ≤ t.col)
    (chip : Chip R G) (hchip : Chip.construct db info = .ok chip) :
    (∀ n t r c,
      (∃ tile, chip.tiles.find n = some tile ∧ tile.info.type = t ∧
        tile.info.get_row_col = (r, c)) ↔
      ∃ cell, chip.location_cell r c = .ok cell ∧ (n, t) ∈ cell) ∧
    (∀ r c tile, tile ∈ chip.get_tiles_by_position r c ↔
      ∃ cell, chip.location_cell r c = .ok cell ∧
        ∃ p ∈ cell, chip.tiles.find p.1 = some tile) ∧
    (∀ r c cell, chip.location_cell r c = .ok cell →
      ((chip.get_tiles_by_position r c).map (fun tile => tile.info.name)).Perm
        (cell.map Prod.fst)) ∧
    (∀ r c e, chip.location_cell r c = .error e → chip.get_tiles_by_position r c = []) := by
  obtain ⟨F1, F2⟩ := construct_index_facts db info hnodup hpos chip hchip
  -- membership in a cell, in terms of the grid
  have hcellmem : ∀ (r c : Int) (p : String × String), 0 ≤ r → 0 ≤ c →
      (p ∈ cellOf chip.tiles_at_location r.toNat c.toNat ↔
        ∃ ti ∈ db.get_device_tilegrid ⟨info.family, info.name⟩,
          ti.row = r ∧ ti.col = c ∧ (ti.name, ti.type) = p) := by
    intro r c p hr hc
    rw [F2, List.mem_map]
    simp only [List.mem_filter, decide_eq_true_eq, Int.toNat_of_nonneg hr,
      Int.toNat_of_nonneg hc]
    constructor
    · rintro ⟨ti, ⟨hti, h1, h2⟩, hp⟩
      exact ⟨ti, hti, h1, h2, hp⟩
    · rintro ⟨ti, hti, h1, h2, hp⟩
      exact ⟨ti, ⟨hti, h1, h2⟩, hp⟩
  have part1 : ∀ n t r c,
      (∃ tile, chip.tiles.find n = some tile ∧ tile.info.type = t ∧
        tile.info.get_row_col = (r, c)) ↔
      ∃ cell, chip.location_cell r c = .ok cell ∧ (n, t) ∈ cell := by
    intro n t r c
    constructor
    · rintro ⟨tile, hfind, hty, hrc⟩
      obtain ⟨ti, hti, hname, rfl⟩ := (F1 n tile).mp hfind
      simp only [TileInfo.get_row_col, Prod.mk.injEq] at hrc hty
      obtain ⟨h0r, h0c⟩ := hpos ti hti
      rw [hrc.1] at h0r
      rw [hrc.2] at h0c
      have hmem := (hcellmem r c (n, t) h0r h0c).mpr
        ⟨ti, hti, hrc.1, hrc.2, by rw [hname, hty]⟩
      exact ⟨_, location_cell_of_mem chip r c h0r h0c _ hmem, hmem⟩
    · rintro ⟨cell, hloc, hmem⟩
      obtain ⟨h0r, h0c, rfl⟩ := location_cell_ok chip r c cell hloc
      obtain ⟨ti, hti, h1, h2, hp⟩ := (hcellmem r c (n, t) h0r h0c).mp hmem
      simp only [Prod.mk.injEq] at hp
      refine ⟨⟨ti, db.make_view info ti⟩, (F1 n _).mpr ⟨ti, hti, hp.1, rfl⟩, hp.2, ?_⟩
      simp [TileInfo.get_row_col, h1, h2]
  have hscan : ∀ r c tile, tile ∈ chip.get_tiles_by_position r c ↔
      ∃ k, chip.tiles.find k = some tile ∧ tile.info.get_row_col = (r, c) := by
    intro r c tile
    unfold Chip.get_tiles_by_position
    simp only [List.mem_map, List.mem_filter, decide_eq_true_eq]
    constructor
    · rintro ⟨e, ⟨he, hrc⟩, rfl⟩
      exact ⟨e.1, (chip.tiles.find_eq_some_iff e.1 e.2).mpr he, hrc⟩
    · rintro ⟨k, hk, hrc⟩
      exact ⟨(k, tile), ⟨(chip.tiles.find_eq_some_iff k tile).mp hk, hrc⟩, rfl⟩
  have part2 : ∀ r c tile, tile ∈ chip.get_tiles_by_position r c ↔
      ∃ cell, chip.location_cell r c = .ok cell ∧
        ∃ p ∈ cell, chip.tiles.find p.1 = some tile := by
    intro r c tile
    rw [hscan]
    constructor
    · rintro ⟨k, hk, hrc⟩
      obtain ⟨cell, hloc, hmem⟩ := (part1 k tile.info.type r c).mp ⟨tile, hk, rfl, hrc⟩
      exact ⟨cell, hloc, (k, tile.info.type), hmem, hk⟩
    · rintro ⟨cell, hloc, p, hp, hfind⟩
      obtain ⟨tile', hfind', _, hrc⟩ := (part1 p.1 p.2 r c).mpr ⟨cell, hloc, hp⟩
      rw [hfind] at hfind'
      cases hfind'
      exact ⟨p.1, hfind, hrc⟩
  refine ⟨part1, part2, ?_, ?_⟩
  · intro r c cell hloc
    obtain ⟨h0r, h0c, hcell⟩ := location_cell_ok chip r c cell hloc
    have hkey : ∀ e ∈ chip.tiles.entries, e.2.info.name = e.1 := by
      intro e he
      obtain ⟨ti, _, hname, htile⟩ :=
        (F1 e.1 e.2).mp ((chip.tiles.find_eq_some_iff e.1 e.2).mpr he)
      rw [htile]
      exact hname
    have hkeys_nodup : (chip.tiles.entries.map Prod.fst).Nodup := by
      have := chip.tiles.sorted
      unfold KeySorted at this
      rw [List.Nodup, List.pairwise_map]
      exact this.imp (fun {a b} hab (heq : a.1 = b.1) =>
        keyLt_irrefl b.1 (by rw [heq] at hab; exact hab))
    apply (List.perm_ext_iff_of_nodup ?_ ?_).mpr
    · intro n
      simp only [List.mem_map]
      constructor
      · rintro ⟨tile, htile, rfl⟩
        obtain ⟨cell', hloc', p, hp, hfind⟩ := (part2 r c tile).mp htile
        rw [hloc] at hloc'
        cases hloc'
        refine ⟨p, hp, ?_⟩
        exact (hkey (p.1, tile) ((chip.tiles.find_eq_some_iff p.1 tile).mp hfind)).symm
      · rintro ⟨p, hp, rfl⟩
        obtain ⟨tile, hfind, _, _⟩ := (part1 p.1 p.2 r c).mpr ⟨cell, hloc, hp⟩
        refine ⟨tile, (part2 r c tile).mpr ⟨cell, hloc, p, hp, hfind⟩, ?_⟩
        exact hkey (p.1, tile) ((chip.tiles.find_eq_some_iff p.1 tile).mp hfind)
    · unfold Chip.get_tiles_by_position
      rw [List.map_map]
      have hcongr : (chip.tiles.entries.filter
            (fun tile => decide (tile.2.info.get_row_col = (r, c)))).map
            ((fun tile : Tile R => tile.info.name) ∘ Prod.snd) =
          (chip.tiles.entries.filter
            (fun tile => decide (tile.2.info.get_row_col = (r, c)))).map Prod.fst := by
        apply List.map_congr_left
        intro e he
        exact hkey e (List.mem_of_mem_filter he)
      rw [hcongr]
      exact hkeys_nodup.sublist ((List.filter_sublist _).map _)
    · rw [hcell, F2, List.map_map]
      exact hnodup.sublist ((List.filter_sublist _).map _)
  · intro r c e hloc
    apply List.eq_nil_iff_forall_not_mem.mpr
    intro tile htile
    obtain ⟨cell, hloc', _⟩ := (part2 r c tile).mp htile
    rw [hloc] at hloc'
    cases hloc'

/-- C1 on the sample device: construction yields the two-tile chip, and the
tile `R2C3:PLC2`, found by name with type `PLC2` at row 2, column 3, is listed
in the cell of that position. -/
theorem chip_indexes_agree_witness :
    Chip.construct sample_db sample_info = .ok (sample_chip 0 0) ∧
    ∃ cell, (sample_chip 0 0).location_cell 2 3 = .ok cell ∧
      ("R2C3:PLC2", "PLC2") ∈ cell :=
  ⟨rfl, ((chip_indexes_agree sample_db sample_info (by decide) (by decide)
    (sample_chip 0 0) rfl).1 "R2C3:PLC2" "PLC2" 2 3).mp ⟨⟨tile_r2c3, 0⟩, rfl, rfl, rfl⟩⟩

/-! ## Graph construction for a logic tile -/

theorem tile_ops_block_machxo2 {R G : Type} (c : Chip R G) (e : String × Tile R)
    (he : e ∈ c.tiles.entries) :
    ∃ pre post, c.get_routing_graph_machxo2 =
      pre ++ machxo2_tile_ops c.info e.2.info ++ post := by
  obtain ⟨l₁, l₂, hl⟩ := List.append_of_mem he
  refine ⟨l₁.flatMap (fun t => machxo2_tile_ops c.info t.2.info),
    l₂.flatMap (fun t => machxo2_tile_ops c.info t.2.info), ?_⟩
  unfold Chip.get_routing_graph_machxo2
  rw [hl, List.flatMap_append, List.flatMap_cons, List.append_assoc]

theorem builder_calls_lutperm_pips (loc : Location) (type : String) (z : Nat) :
    builder_calls (lutperm_pips loc type z) = [] := by
  unfold builder_calls lutperm_pips for_range
  simp only [List.filter_flatMap]
  apply List.flatMap_eq_nil_iff.mpr
  intro k _
  apply List.flatMap_eq_nil_iff.mpr
  intro i _
  apply List.flatMap_eq_nil_iff.mpr
  intro j _
  split <;> rfl

theorem builder_calls_plc2 (info : ChipInfo) (incl : Bool) (name : String) (row col : Int) :
    builder_calls (ecp5_tile_ops info incl ⟨name, "PLC2", row, col⟩) =
      [.ecp5 (.add_lc col row 0), .ecp5 (.add_lc col row 1),
       .ecp5 (.add_lc col row 2), .ecp5 (.add_lc col row 3)] := by
  have h1 : ecp5_pio_bels "PLC2" col row = [] := rfl
  have h2 : ecp5_dcc_bels "PLC2" col row = [] := rfl
  have h3 : ecp5_ram_bels "PLC2" col row = [] := rfl
  have h4 : ecp5_dsp_bels "PLC2" col row = [] := rfl
  have h5 : ecp5_pll_bels "PLC2" col row = [] := rfl
  have h6 : ecp5_dcu_bels "PLC2" col row = [] := rfl
  have h7 : ecp5_config_bels "PLC2" col row = [] := rfl
  have h8 : ecp5_slice_bels incl "PLC2" col row =
      for_range 0 4 fun z => [.ecp5 (.add_lc col row z)] ++
        (if incl = true then lutperm_pips ⟨col, row⟩ "PLC2" z else []) := rfl
  have h9 : ∀ z, builder_calls
      (if incl = true then lutperm_pips ⟨col, row⟩ "PLC2" z else []) = [] := by
    intro z
    split
    · exact builder_calls_lutperm_pips _ _ z
    · rfl
  unfold ecp5_tile_ops
  simp only [TileInfo.get_row_col, h1, h2, h3, h4, h5, h6, h7, h8, List.append_nil]
  unfold builder_calls at h9 ⊢
  unfold for_range
  simp only [List.filter_append, List.filter_flatMap, h9, List.append_nil]
  rfl

theorem builder_calls_plc (info : ChipInfo) (name : String) (row col : Int) :
    builder_calls (machxo2_tile_ops info ⟨name, "PLC", row, col⟩) =
      [.machxo2 (.add_lc col row 0), .machxo2 (.add_lc col row 1),
       .machxo2 (.add_lc col row 2), .machxo2 (.add_lc col row 3)] := by
  rfl

/-- C11: on a chip of family ECP5 the calls of graph construction for a tile
of type `PLC2` at row `r`, column `c`, and on a chip of family MachXO2 those
for a tile of type `PLC`, are a block of the calls of `get_routing_graph`, and
the primitive builders called in that block are exactly `add_lc(x, y, z)` for
`z = 0, 1, 2, 3` in this order with `x = c` and `y = r`. -/
theorem logic_tile_builders {R G : Type} (c : Chip R G) (incl : Bool) (e : String × Tile R)
    (he : e ∈ c.tiles.entries) :
    (c.info.family = "ECP5" → e.2.info.type = "PLC2" →
      (∃ pre post, c.get_routing_graph incl =
        .ok (pre ++ ecp5_tile_ops c.info incl e.2.info ++ post)) ∧
      builder_calls (ecp5_tile_ops c.info incl e.2.info) =
        [.ecp5 (.add_lc e.2.info.col e.2.info.row 0),
         .ecp5 (.add_lc e.2.info.col e.2.info.row 1),
         .ecp5 (.add_lc e.2.info.col e.2.info.row 2),
         .ecp5 (.add_lc e.2.info.col e.2.info.row 3)]) ∧
    (c.info.family = "MachXO2" → e.2.info.type = "PLC" →
      (∃ pre post, c.get_routing_graph incl =
        .ok (pre ++ machxo2_tile_ops c.info e.2.info ++ post)) ∧
      builder_calls (machxo2_tile_ops c.info e.2.info) =
        [.machxo2 (.add_lc e.2.info.col e.2.info.row 0),
         .machxo2 (.add_lc e.2.info.col e.2.info.row 1),
         .machxo2 (.add_lc e.2.info.col e.2.info.row 2),
         .machxo2 (.add_lc e.2.info.col e.2.info.row 3)]) := by
  constructor
  · intro hfam hty
    constructor
    · obtain ⟨pre, post, h⟩ := tile_ops_block c incl e he
      refine ⟨pre, post, ?_⟩
      unfold Chip.get_routing_graph
      rw [if_pos hfam, h]
      rfl
    · have := builder_calls_plc2 c.info incl e.2.info.name e.2.info.row e.2.info.col
      rw [← hty] at this
      exact this
  · intro hfam hty
    have hne : ¬ c.info.family = "ECP5" := by
      rw [hfam]
      decide
    constructor
    · obtain ⟨pre, post, h⟩ := tile_ops_block_machxo2 c e he
      refine ⟨pre, post, ?_⟩
      unfold Chip.get_routing_graph
      rw [if_neg hne, if_pos hfam, h]
      rfl
    · have := builder_calls_plc c.info e.2.info.name e.2.info.row e.2.info.col
      rw [← hty] at this
      exact this

/-- C11 on the sample chips: the logic tile at row 2, column 3 gets the four
logic cells at `x = 3`, `y = 2`, for either family. -/
theorem logic_tile_builders_witness :
    builder_calls (ecp5_tile_ops sample_info true tile_r2c3) =
      [.ecp5 (.add_lc 3 2 0), .ecp5 (.add_lc 3 2 1),
       .ecp5 (.add_lc 3 2 2), .ecp5 (.add_lc 3 2 3)] ∧
    builder_calls (machxo2_tile_ops machxo2_info tile_plc) =
      [.machxo2 (.add_lc 3 2 0), .machxo2 (.add_lc 3 2 1),
       .machxo2 (.add_lc 3 2 2), .machxo2 (.add_lc 3 2 3)] :=
  ⟨((logic_tile_builders (sample_chip 5 9) true ("R2C3:PLC2", ⟨tile_r2c3, 5⟩)
      (List.mem_cons_self _ _)).1 rfl rfl).2,
   ((logic_tile_builders machxo2_chip true ("R2C3:PLC", ⟨tile_plc, 0⟩)
      (List.mem_cons_self _ _)).2 rfl rfl).2⟩

/-! ## Unknown families -/

theorem get_routing_graph_calls_of_ok {R G : Type} (c : Chip R G) (incl : Bool)
    (g : List GraphOp) (h : c.get_routing_graph incl = .ok g) :
    c.get_routing_graph_calls incl = g := by
  unfold Chip.get_routing_graph at h
  unfold Chip.get_routing_graph_calls
  by_cases h1 : c.info.family = "ECP5"
  · rw [if_pos h1] at h ⊢
    cases h
    rfl
  · rw [if_neg h1] at h ⊢
    by_cases h2 : c.info.family = "MachXO2"
    · rw [if_pos h2] at h ⊢
      cases h
      rfl
    · rw [if_neg h2] at h
      cases h

/-- C12: on a chip whose family tag is neither `ECP5` nor `MachXO2`,
`get_routing_graph` throws the `runtime_error` "Unknown chip family: " with the
tag, for either value of the flag, and has made no call on a graph by then:
no routing import, no primitive builder and no `add_arc`. -/
theorem unknown_family_graph_fails {R G : Type} (c : Chip R G) (incl : Bool)
    (h1 : c.info.family ≠ "ECP5") (h2 : c.info.family ≠ "MachXO2") :
    c.get_routing_graph incl =
      .error (.runtime_error ("Unknown chip family: " ++ c.info.family)) ∧
    c.get_routing_graph_calls incl = [] ∧
    routing_calls (c.get_routing_graph_calls incl) = [] ∧
    builder_calls (c.get_routing_graph_calls incl) = [] ∧
    added_arcs (c.get_routing_graph_calls incl) = [] := by
  have hcalls : c.get_routing_graph_calls incl = [] := by
    unfold Chip.get_routing_graph_calls
    rw [if_neg h1, if_neg h2]
  refine ⟨?_, hcalls, ?_, ?_, ?_⟩
  · unfold Chip.get_routing_graph
    rw [if_neg h1, if_neg h2]
    rfl
  · rw [hcalls]
    rfl
  · rw [hcalls]
    rfl
  · rw [hcalls]
    rfl

/-- C12 on the sample chip tagged `iCE40`. -/
theorem unknown_family_graph_fails_witness :
    unknown_chip.get_routing_graph true =
      .error (.runtime_error "Unknown chip family: iCE40") ∧
    unknown_chip.get_routing_graph_calls true = [] :=
  have h := unknown_family_graph_fails unknown_chip true (by decide) (by decide)
  ⟨h.1, h.2.1⟩

/-- C13: with a tile grid of non-negative rows and columns, construction
throws exactly when the family tag is neither `ECP5` nor `MachXO2`, and the
exception is then the `runtime_error` "Unknown chip family " with the tag; for
`ECP5` and for `MachXO2` it yields a chip with the given constants that holds
the global-network descriptor the database has for that family. -/
theorem construct_family {R G : Type} (db : Database R G) (info : ChipInfo)
    (hpos : ∀ t ∈ db.get_device_tilegrid ⟨info.family, info.name⟩, 0 ≤ t.row ∧ 0 ≤ t.col) :
    ((∃ e, Chip.construct db info = .error e) ↔
      (info.family ≠ "ECP5" ∧ info.family ≠ "MachXO2")) ∧
    (∀ e, Chip.construct db info = .error e →
      e = .runtime_error ("Unknown chip family " ++ info.family)) ∧
    (info.family = "ECP5" → ∃ chip, Chip.construct db info = .ok chip ∧ chip.info = info ∧
      chip.global_data_ecp5 = some (db.get_global_info_ecp5 ⟨info.family, info.name⟩) ∧
      chip.global_data_machxo2 = none) ∧
    (info.family = "MachXO2" → ∃ chip, Chip.construct db info = .ok chip ∧ chip.info = info ∧
      chip.global_data_machxo2 = some (db.get_global_info_machxo2 ⟨info.family, info.name⟩) ∧
      chip.global_data_ecp5 = none) := by
  obtain ⟨st, hfold, _, _⟩ := construct_loop db info
    (db.get_device_tilegrid ⟨info.family, info.name⟩) (StdMap.empty, []) hpos
  have hc : Chip.construct db info =
      if info.family = "ECP5" then
        .ok ⟨info, st.1, st.2, some (db.get_global_info_ecp5 ⟨info.family, info.name⟩), none⟩
      else if info.family = "MachXO2" then
        .ok ⟨info, st.1, st.2, none,
          some (db.get_global_info_machxo2 ⟨info.family, info.name⟩)⟩
      else .error (.runtime_error ("Unknown chip family " ++ info.family)) := by
    unfold Chip.construct
    dsimp only
    rw [hfold]
    rfl
  rw [hc]
  by_cases h1 : info.family = "ECP5"
  · have h2 : ¬ info.family = "MachXO2" := by
      rw [h1]
      decide
    rw [if_pos h1]
    refine ⟨⟨fun ⟨e, he⟩ => (by cases he), fun h => absurd h1 h.1⟩, fun e he => (by cases he),
      fun _ => ⟨_, rfl, rfl, rfl, rfl⟩, fun h => absurd h h2⟩
  · rw [if_neg h1]
    by_cases h2 : info.family = "MachXO2"
    · rw [if_pos h2]
      refine ⟨⟨fun ⟨e, he⟩ => (by cases he), fun h => absurd h2 h.2⟩,
        fun e he => (by cases he), fun h => absurd h h1, fun _ => ⟨_, rfl, rfl, rfl, rfl⟩⟩
    · rw [if_neg h2]
      refine ⟨⟨fun _ => ⟨h1, h2⟩, fun _ => ⟨_, rfl⟩⟩, fun e he => ?_,
        fun h => absurd h h1, fun h => absurd h h2⟩
      cases he
      rfl

/-- C13 on the sample database: construction succeeds for the ECP5 device and
throws for the same device tagged `iCE40`. -/
theorem construct_family_witness :
    (∃ chip, Chip.construct sample_db sample_info = .ok chip ∧ chip.info = sample_info ∧
      chip.global_data_ecp5 = some ⟨[], [], []⟩ ∧ chip.global_data_machxo2 = none) ∧
    ∃ e, Chip.construct sample_db { sample_info with family := "iCE40" } = .error e :=
  ⟨(construct_family sample_db sample_info (by decide)).2.2.1 rfl,
   (construct_family sample_db { sample_info with family := "iCE40" } (by decide)).1.mpr
     ⟨by decide, by decide⟩⟩

/-! ## Lookup by position and type -/

theorem first_of_type_eq (accept : String → Bool) (cell : List (String × String)) :
    first_of_type accept cell =
      (cell.find? (fun tile => accept tile.2)).map Prod.fst := by
  induction cell with
  | nil => rfl
  | cons hd tl ih =>
    by_cases h : accept hd.2 = true
    · simp [first_of_type, h]
    · simp [first_of_type, h, ih]

theorem get_by_type_of_cell {R G : Type} (c : Chip R G) (row col : Int) (type : String)
    (cell : List (String × String)) (hcell : c.location_cell row col = .ok cell) :
    c.get_tile_by_position_and_type row col type =
      scan_or_throw (fun tile : String × String => tile.2 == type) Prod.fst
        (no_suitable_tile row col) cell := by
  unfold Chip.get_tile_by_position_and_type scan_or_throw
  rw [hcell, ← first_of_type_eq (fun t => t == type) cell]
  simp only [bind, Except.bind]
  cases first_of_type (fun t => t == type) cell <;> rfl

theorem get_by_type_set_of_cell {R G : Type} (c : Chip R G) (row col : Int)
    (types : List String) (cell : List (String × String))
    (hcell : c.location_cell row col = .ok cell) :
    c.get_tile_by_position_and_type_set row col types =
      scan_or_throw (fun tile : String × String => decide (tile.2 ∈ types)) Prod.fst
        (no_suitable_tile row col) cell := by
  unfold Chip.get_tile_by_position_and_type_set scan_or_throw
  rw [hcell, ← first_of_type_eq (fun t => decide (t ∈ types)) cell]
  simp only [bind, Except.bind]
  cases first_of_type (fun t => decide (t ∈ types)) cell <;> rfl

theorem get_by_type_of_no_cell {R G : Type} (c : Chip R G) (row col : Int) (type : String)
    (types : List String) (e : Error) (hcell : c.location_cell row col = .error e) :
    c.get_tile_by_position_and_type row col type = .error e ∧
    c.get_tile_by_position_and_type_set row col types = .error e := by
  unfold Chip.get_tile_by_position_and_type Chip.get_tile_by_position_and_type_set
  rw [hcell]
  exact ⟨rfl, rfl⟩

theorem vecAt_error {α : Type} (v : List α) (i : Int) (e : Error)
    (h : vecAt v i = .error e) : e = .out_of_range := by
  unfold vecAt at h
  split at h
  · split at h
    · cases h
    · cases h
      rfl
  · cases h
    rfl

theorem location_cell_error {R G : Type} (c : Chip R G) (row col : Int) (e : Error)
    (h : c.location_cell row col = .error e) : e = .out_of_range := by
  unfold Chip.location_cell at h
  cases hr : vecAt c.tiles_at_location row with
  | error e' =>
    rw [hr] at h
    cases h
    exact vecAt_error _ _ _ hr
  | ok r =>
    rw [hr] at h
    exact vecAt_error r col e h

/-- C14 as amended: where the grid index has a cell at `(row, col)` and no
entry of the cell has the requested type (one of the requested types), both
overloads throw the `runtime_error` "no suitable tile found at R", row, "C",
column, which names the position and not the requested types; where the grid
index has no cell at `(row, col)` both throw `std::out_of_range`. -/
theorem no_tile_of_type {R G : Type} (c : Chip R G) (row col : Int) (type : String)
    (types : List String) :
    (∀ cell, c.location_cell row col = .ok cell → (∀ p ∈ cell, p.2 ≠ type) →
      c.get_tile_by_position_and_type row col type = .error (.runtime_error
        ("no suitable tile found at R" ++ toString row ++ "C" ++ toString col))) ∧
    (∀ cell, c.location_cell row col = .ok cell → (∀ p ∈ cell, p.2 ∉ types) →
      c.get_tile_by_position_and_type_set row col types = .error (.runtime_error
        ("no suitable tile found at R" ++ toString row ++ "C" ++ toString col))) ∧
    (∀ e, c.location_cell row col = .error e →
      c.get_tile_by_position_and_type row col type = .error .out_of_range ∧
      c.get_tile_by_position_and_type_set row col types = .error .out_of_range) := by
  refine ⟨fun cell hcell hno => ?_, fun cell hcell hno => ?_, fun e he => ?_⟩
  · rw [get_by_type_of_cell c row col type cell hcell]
    obtain ⟨_, h2, h3⟩ := scan_or_throw_spec (fun tile : String × String => tile.2 == type)
      Prod.fst (no_suitable_tile row col) cell
    obtain ⟨e, he⟩ := h2.mpr (fun p hp => by simpa using hno p hp)
    rw [he, h3 e he]
    rfl
  · rw [get_by_type_set_of_cell c row col types cell hcell]
    obtain ⟨_, h2, h3⟩ := scan_or_throw_spec
      (fun tile : String × String => decide (tile.2 ∈ types))
      Prod.fst (no_suitable_tile row col) cell
    obtain ⟨e, he⟩ := h2.mpr (fun p hp => by simpa using hno p hp)
    rw [he, h3 e he]
    rfl
  · have := location_cell_error c row col e he
    subst this
    exact get_by_type_of_no_cell c row col type types _ he

/-- C14 fails on the one-tile sample chip: at row 2, column 3 a request for
`MIB_EBR0` throws a `runtime_error` whose message does not hold the requested
type, the same as a request for `DCU0` throws; and at row 7, column 7, where
the chip has no tile, the exception is `std::out_of_range`, which holds no
position. -/
theorem no_tile_of_type_counterexample :
    (small_chip 0).get_tile_by_position_and_type 2 3 "MIB_EBR0" =
      .error (.runtime_error "no suitable tile found at R2C3") ∧
    strContains "no suitable tile found at R2C3" "MIB_EBR0" = false ∧
    (small_chip 0).get_tile_by_position_and_type 2 3 "DCU0" =
      (small_chip 0).get_tile_by_position_and_type 2 3 "MIB_EBR0" ∧
    (small_chip 0).get_tile_by_position_and_type_set 2 3 ["MIB_EBR0", "DCU0"] =
      .error (.runtime_error "no suitable tile found at R2C3") ∧
    (small_chip 0).get_tile_by_position_and_type 7 7 "PLC2" = .error .out_of_range ∧
    (small_chip 0).get_tile_by_position_and_type_set 7 7 ["PLC2"] = .error .out_of_range := by
  refine ⟨rfl, by decide, rfl, rfl, rfl, rfl⟩

/-- C14 as amended, on the one-tile sample chip: the empty cell at row 2,
column 0 and the missing cell at row 7, column 7. -/
theorem no_tile_of_type_witness :
    (small_chip 0).get_tile_by_position_and_type 2 0 "PLC2" =
      .error (.runtime_error "no suitable tile found at R2C0") ∧
    (small_chip 0).get_tile_by_position_and_type 7 7 "PLC2" = .error .out_of_range :=
  have h := no_tile_of_type (small_chip 0) 2 0 "PLC2" ["PLC2"]
  have h' := no_tile_of_type (small_chip 0) 7 7 "PLC2" ["PLC2"]
  ⟨h.1 [] rfl (by simp), (h'.2.2 .out_of_range rfl).1⟩

theorem construct_cells {R G : Type} (db : Database R G) (info : ChipInfo)
    (hpos : ∀ t ∈ db.get_device_tilegrid ⟨info.family, info.name⟩, 0 ≤ t.row ∧ 0 ≤ t.col)
    (chip : Chip R G) (hchip : Chip.construct db info = .ok chip) (r c : Nat) :
    cellOf chip.tiles_at_location r c =
      ((db.get_device_tilegrid ⟨info.family, info.name⟩).filter
        (fun t => decide (t.row = (r : Int) ∧ t.col = (c : Int)))).map
        (fun t => (t.name, t.type)) := by
  obtain ⟨st, hfold, _, htal, _⟩ := construct_ok db info chip hchip
  obtain ⟨st', hfold', _, hcell⟩ := construct_loop db info
    (db.get_device_tilegrid ⟨info.family, info.name⟩) (StdMap.empty, []) hpos
  rw [hfold] at hfold'
  cases hfold'
  rw [htal, hcell r c]
  simp [cellOf]

theorem first_of_type_grid (accept : String → Bool) (l : List TileInfo)
    (p : TileInfo → Bool) :
    first_of_type accept ((l.filter p).map (fun t => (t.name, t.type))) =
      (l.find? (fun t => decide (p t = true ∧ accept t.type = true))).map TileInfo.name := by
  rw [first_of_type_eq, List.find?_map, List.find?_filter, Option.map_map]
  rfl

theorem get_by_type_eq_set {R G : Type} (c : Chip R G) (row col : Int) (type : String) :
    c.get_tile_by_position_and_type row col type =
      c.get_tile_by_position_and_type_set row col [type] := by
  have hfun : (fun t : String => t == type) = (fun t => decide (t ∈ [type])) := by
    funext t
    by_cases h : t = type <;> simp [h]
  unfold Chip.get_tile_by_position_and_type Chip.get_tile_by_position_and_type_set
  rw [hfun]

/-- C15: on a chip constructed from a tile grid with non-negative rows and
columns, when some tile of the grid at `(row, col)` has a type of the accepted
set, the set overload returns the name of the first tile of the grid, in the
order supplied, that is at `(row, col)` with an accepted type; when the names
of the grid are pairwise distinct that name maps to this tile in `tiles`. The
overload for one type returns what the set overload returns for the set of
that one type. -/
theorem first_tile_of_type {R G : Type} (db : Database R G) (info : ChipInfo)
    (hpos : ∀ t ∈ db.get_device_tilegrid ⟨info.family, info.name⟩, 0 ≤ t.row ∧ 0 ≤ t.col)
    (chip : Chip R G) (hchip : Chip.construct db info = .ok chip) (row col : Int)
    (types : List String)
    (hex : ∃ t ∈ db.get_device_tilegrid ⟨info.family, info.name⟩,
      t.row = row ∧ t.col = col ∧ t.type ∈ types) :
    (∃ pre ti post, db.get_device_tilegrid ⟨info.family, info.name⟩ = pre ++ ti :: post ∧
      (∀ t ∈ pre, ¬ (t.row = row ∧ t.col = col ∧ t.type ∈ types)) ∧
      ti.row = row ∧ ti.col = col ∧ ti.type ∈ types ∧
      chip.get_tile_by_position_and_type_set row col types = .ok ti.name ∧
      (((db.get_device_tilegrid ⟨info.family, info.name⟩).map TileInfo.name).Nodup →
        chip.tiles.find ti.name = some ⟨ti, db.make_view info ti⟩)) ∧
    (∀ type, chip.get_tile_by_position_and_type row col type =
      chip.get_tile_by_position_and_type_set row col [type]) := by
  refine ⟨?_, fun type => get_by_type_eq_set chip row col type⟩
  obtain ⟨t0, ht0, hr0, hc0, hty0⟩ := hex
  obtain ⟨h0r, h0c⟩ := hpos t0 ht0
  rw [hr0] at h0r
  rw [hc0] at h0c
  have hcellEq := construct_cells db info hpos chip hchip row.toNat col.toNat
  rw [Int.toNat_of_nonneg h0r, Int.toNat_of_nonneg h0c] at hcellEq
  have hmem : (t0.name, t0.type) ∈ cellOf chip.tiles_at_location row.toNat col.toNat := by
    rw [hcellEq]
    exact List.mem_map.mpr ⟨t0, List.mem_filter.mpr ⟨ht0, by simp [hr0, hc0]⟩, rfl⟩
  have hloc := location_cell_of_mem chip row col h0r h0c _ hmem
  rw [hcellEq] at hloc
  have hget : chip.get_tile_by_position_and_type_set row col types =
      match (db.get_device_tilegrid ⟨info.family, info.name⟩).find?
          (fun t => decide (decide (t.row = row ∧ t.col = col) = true ∧
            decide (t.type ∈ types) = true)) with
      | some ti => .ok ti.name
      | none => .error (no_suitable_tile row col) := by
    unfold Chip.get_tile_by_position_and_type_set
    rw [hloc]
    simp only [bind, Except.bind]
    rw [first_of_type_grid]
    cases List.find? _ (db.get_device_tilegrid ⟨info.family, info.name⟩) <;> rfl
  cases hfind : (db.get_device_tilegrid ⟨info.family, info.name⟩).find?
      (fun t => decide (decide (t.row = row ∧ t.col = col) = true ∧
        decide (t.type ∈ types) = true)) with
  | none =>
    have := List.find?_eq_none.mp hfind t0 ht0
    simp [hr0, hc0, hty0] at this
  | some ti =>
    rw [hfind] at hget
    obtain ⟨pre, post, hl, hpre, hti⟩ := (find?_eq_some_split _ _ _).mp hfind
    simp only [decide_eq_true_eq] at hti
    refine ⟨pre, ti, post, hl, fun t ht hc => ?_, hti.1.1, hti.1.2, hti.2, hget, fun hnodup => ?_⟩
    · have := hpre t ht
      simp [hc.1, hc.2.1, hc.2.2] at this
    · have hin : ti ∈ db.get_device_tilegrid ⟨info.family, info.name⟩ := by
        rw [hl]
        simp
      exact ((construct_index_facts db info hnodup hpos chip hchip).1 ti.name _).mpr
        ⟨ti, hin, rfl, rfl⟩

/-- C15 on the sample device: the lookup at row 2, column 4 for the types
`PLC2` and `DCU0` returns the name of the second sample tile. -/
theorem first_tile_of_type_witness :
    (sample_chip 0 0).get_tile_by_position_and_type_set 2 4 ["PLC2", "DCU0"] =
      .ok "R2C4:PLC2" ∧
    (sample_chip 0 0).get_tile_by_position_and_type 2 4 "PLC2" =
      (sample_chip 0 0).get_tile_by_position_and_type_set 2 4 ["PLC2"] := by
  have h := first_tile_of_type sample_db sample_info (by decide) (sample_chip 0 0) rfl 2 4
    ["PLC2", "DCU0"] ⟨tile_r2c4, by decide, rfl, rfl, by decide⟩
  exact ⟨rfl, h.2 "PLC2"⟩

/-! ## Every matching rule fires -/

theorem ecp5_slice_bels_rule (incl : Bool) (type : String) (x y : Int) :
    ecp5_slice_bels incl type x y =
      if type = "PLC2" then
        for_range 0 4 fun z =>
          [.ecp5 (.add_lc x y z)] ++ (if incl then lutperm_pips ⟨x, y⟩ "PLC2" z else [])
      else [] := by
  unfold ecp5_slice_bels
  by_cases h : type = "PLC2"
  · subst h
    rfl
  · rw [if_neg h, if_neg h]

theorem ecp5_tile_ops_rules (info : ChipInfo) (incl : Bool) (tile : TileInfo) :
    ecp5_tile_ops info incl tile =
      .add_routing ⟨info.family, info.name, tile.type⟩ tile ::
        (ecp5_rules incl).flatMap
          (fun r => if r.applies tile.type then r.calls tile.col tile.row else []) := by
  unfold ecp5_tile_ops
  dsimp only
  rw [ecp5_slice_bels_rule]
  simp only [TileInfo.get_row_col, ecp5_rules, ecp5_pio_bels, ecp5_dcc_bels, ecp5_ram_bels,
    ecp5_dsp_bels, ecp5_pll_bels, ecp5_dcu_bels, ecp5_config_bels, List.flatMap_cons,
    List.flatMap_nil, List.append_assoc, List.singleton_append, List.append_nil,
    List.cons_append, List.nil_append,
    beq_iff_eq, Bool.or_eq_true, decide_eq_true_eq]

theorem builder_calls_bmid_0h (info : ChipInfo) (incl : Bool) (name : String)
    (row col : Int) :
    builder_calls (ecp5_tile_ops info incl ⟨name, "BMID_0H", row, col⟩) =
      [.ecp5 (.add_dcc col row "B" "0"),
       .ecp5 (.add_dcc col row "B" "1"),
       .ecp5 (.add_dcc col row "B" "2"),
       .ecp5 (.add_dcc col row "B" "3"),
       .ecp5 (.add_dcc col row "B" "4"),
       .ecp5 (.add_dcc col row "B" "5"),
       .ecp5 (.add_dcc col row "B" "6"),
       .ecp5 (.add_dcc col row "B" "7"),
       .ecp5 (.add_dcc col row "B" "8"),
       .ecp5 (.add_dcc col row "B" "9"),
       .ecp5 (.add_dcc col row "B" "10"),
       .ecp5 (.add_dcc col row "B" "11"),
       .ecp5 (.add_dcc col row "B" "12"),
       .ecp5 (.add_dcc col row "B" "13"),
       .ecp5 (.add_dcc col row "B" "14"),
       .ecp5 (.add_dcc col row "B" "15"),
       .ecp5 (.add_pcsclkdiv col (row - 1) 0), .ecp5 (.add_pcsclkdiv col (row - 1) 1)] := by
  rfl

theorem builder_calls_picl0_dqs2 (info : ChipInfo) (incl : Bool) (name : String)
    (row col : Int) :
    builder_calls (ecp5_tile_ops info incl ⟨name, "PICL0_DQS2", row, col⟩) =
      [.ecp5 (.add_pio col row 0), .ecp5 (.add_iologic col row 0 false),
       .ecp5 (.add_pio col row 1), .ecp5 (.add_iologic col row 1 false),
       .ecp5 (.add_pio col row 2), .ecp5 (.add_iologic col row 2 false),
       .ecp5 (.add_pio col row 3), .ecp5 (.add_iologic col row 3 false),
       .ecp5 (.add_ioclk_bel "DQSBUFM" col row 0 (-1))] := by
  rfl

/-- C16: the calls of the loop body for a tile are the routing import followed
by the calls of every rule of the table whose test passes on the tile type,
rule after rule in table order, so that the calls of each matching rule are a
block of the calls of `get_routing_graph_ecp5` whatever other rules match. A
tile of type `BMID_0H` gets the sixteen `add_dcc(x, y, "B", 0..15)` and the two
`add_pcsclkdiv(x, y-1, 0..1)`, and a tile of type `PICL0_DQS2` gets `add_pio`
and `add_iologic(s = false)` for `z = 0..3` and `add_ioclk_bel("DQSBUFM", x, y,
0)`, and no other builder. -/
theorem all_matching_rules_fire {R G : Type} (c : Chip R G) (incl : Bool)
    (e : String × Tile R) (he : e ∈ c.tiles.entries) :
    (ecp5_tile_ops c.info incl e.2.info =
      .add_routing ⟨c.info.family, c.info.name, e.2.info.type⟩ e.2.info ::
        (ecp5_rules incl).flatMap (fun r =>
          if r.applies e.2.info.type then r.calls e.2.info.col e.2.info.row else [])) ∧
    (∀ r ∈ ecp5_rules incl, r.applies e.2.info.type = true →
      ∃ pre post, c.get_routing_graph_ecp5 incl =
        pre ++ r.calls e.2.info.col e.2.info.row ++ post) ∧
    (e.2.info.type = "BMID_0H" →
      builder_calls (ecp5_tile_ops c.info incl e.2.info) =
        (List.range 16).map
          (fun z => .ecp5 (.add_dcc e.2.info.col e.2.info.row "B" (toString z))) ++
        (List.range 2).map
          (fun z => .ecp5 (.add_pcsclkdiv e.2.info.col (e.2.info.row - 1) z))) ∧
    (e.2.info.type = "PICL0_DQS2" →
      builder_calls (ecp5_tile_ops c.info incl e.2.info) =
        (List.range 4).flatMap (fun z =>
          [.ecp5 (.add_pio e.2.info.col e.2.info.row z),
           .ecp5 (.add_iologic e.2.info.col e.2.info.row z false)]) ++
        [.ecp5 (.add_ioclk_bel "DQSBUFM" e.2.info.col e.2.info.row 0 (-1))]) := by
  refine ⟨ecp5_tile_ops_rules c.info incl e.2.info, fun r hr happ => ?_, fun hty => ?_,
    fun hty => ?_⟩
  · obtain ⟨pre, post, hblock⟩ := tile_ops_block c incl e he
    obtain ⟨l₁, l₂, hl⟩ := List.append_of_mem hr
    rw [hblock, ecp5_tile_ops_rules, hl, List.flatMap_append, List.flatMap_cons, if_pos happ]
    refine ⟨pre ++ (.add_routing ⟨c.info.family, c.info.name, e.2.info.type⟩ e.2.info ::
      l₁.flatMap (fun r =>
        if r.applies e.2.info.type then r.calls e.2.info.col e.2.info.row else [])),
      l₂.flatMap (fun r =>
        if r.applies e.2.info.type then r.calls e.2.info.col e.2.info.row else []) ++ post, ?_⟩
    simp only [List.append_assoc, List.cons_append]
  · have := builder_calls_bmid_0h c.info incl e.2.info.name e.2.info.row e.2.info.col
    rw [← hty] at this
    rw [this]
    rfl
  · have := builder_calls_picl0_dqs2 c.info incl e.2.info.name e.2.info.row e.2.info.col
    rw [← hty] at this
    rw [this]
    rfl

/-- C16 on the sample chip of an I/O tile and a bottom-middle tile: the
bottom-middle tile at row 3, column 1 gets its sixteen DCCs and two clock
dividers, the I/O tile at row 1, column 0 its four I/O pairs and the DQS
buffer. -/
theorem all_matching_rules_fire_witness :
    builder_calls (ecp5_tile_ops sample_info true tile_bmid) =
      [.ecp5 (.add_dcc 1 3 "B" "0"),
       .ecp5 (.add_dcc 1 3 "B" "1"),
       .ecp5 (.add_dcc 1 3 "B" "2"),
       .ecp5 (.add_dcc 1 3 "B" "3"),
       .ecp5 (.add_dcc 1 3 "B" "4"),
       .ecp5 (.add_dcc 1 3 "B" "5"),
       .ecp5 (.add_dcc 1 3 "B" "6"),
       .ecp5 (.add_dcc 1 3 "B" "7"),
       .ecp5 (.add_dcc 1 3 "B" "8"),
       .ecp5 (.add_dcc 1 3 "B" "9"),
       .ecp5 (.add_dcc 1 3 "B" "10"),
       .ecp5 (.add_dcc 1 3 "B" "11"),
       .ecp5 (.add_dcc 1 3 "B" "12"),
       .ecp5 (.add_dcc 1 3 "B" "13"),
       .ecp5 (.add_dcc 1 3 "B" "14"),
       .ecp5 (.add_dcc 1 3 "B" "15"),
       .ecp5 (.add_pcsclkdiv 1 2 0), .ecp5 (.add_pcsclkdiv 1 2 1)] ∧
    builder_calls (ecp5_tile_ops sample_info true tile_dqs) =
      [.ecp5 (.add_pio 0 1 0), .ecp5 (.add_iologic 0 1 0 false),
       .ecp5 (.add_pio 0 1 1), .ecp5 (.add_iologic 0 1 1 false),
       .ecp5 (.add_pio 0 1 2), .ecp5 (.add_iologic 0 1 2 false),
       .ecp5 (.add_pio 0 1 3), .ecp5 (.add_iologic 0 1 3 false),
       .ecp5 (.add_ioclk_bel "DQSBUFM" 0 1 0 (-1))] :=
  ⟨(all_matching_rules_fire clock_chip true ("MIB_R3C1:BMID_0H", ⟨tile_bmid, 0⟩)
      (List.mem_cons_of_mem _ (List.mem_cons_self _ _))).2.2.1 rfl,
   (all_matching_rules_fire clock_chip true ("MIB_R1C0:PICL0_DQS2", ⟨tile_dqs, 0⟩)
      (List.mem_cons_self _ _)).2.2.2 rfl⟩

/-! ## The crossbar arcs and their flags -/

theorem added_arcs_lutperm_pips (loc : Location) (type : String) (z : Nat) (hz : z < 4) :
    added_arcs (lutperm_pips loc type z) =
      (crossbar_triples.filter (fun t => t.1 / 2 == z)).map
        (fun t => lutperm_arc loc type t.1 t.2.1 t.2.2) := by
  interval_cases z <;> rfl

theorem added_arcs_slice (incl : Bool) (type : String) (x y : Int) :
    added_arcs (ecp5_slice_bels incl type x y) =
      if type = "PLC2" ∧ incl = true then
        (List.range' 0 4).flatMap (fun z => added_arcs (lutperm_pips ⟨x, y⟩ type z))
      else [] := by
  by_cases h : type = "PLC2" ∧ incl = true
  · obtain ⟨h1, h2⟩ := h
    subst h1
    subst h2
    rfl
  · rw [if_neg h]
    by_cases h1 : type = "PLC2"
    · have h2 : incl = false := by
        cases incl
        · rfl
        · exact absurd ⟨h1, rfl⟩ h
      subst h2
      exact added_arcs_slice_off type x y
    · unfold ecp5_slice_bels
      rw [if_neg h1]
      rfl

theorem abcd_letters : ∀ j < 4, abcd j = ["A", "B", "C", "D"].getD j "" := by
  decide

theorem crossbar_triples_slices : ∀ k < 8, ∀ z < 4,
    ((∃ t ∈ crossbar_triples.filter (fun t => t.1 / 2 == z), t.1 = k) ↔ z = k / 2) := by
  decide

theorem lutperm_arc_fields (loc : Location) (type : String) (t : Nat × Nat × Nat)
    (ht : t ∈ crossbar_triples) :
    lutperm_unpack (lutperm_arc loc type t.1 t.2.1 t.2.2).lutperm_flags = t ∧
    (lutperm_arc loc type t.1 t.2.1 t.2.2).source =
      ⟨loc, ["A", "B", "C", "D"].getD t.2.2 "" ++ toString t.1⟩ ∧
    (lutperm_arc loc type t.1 t.2.1 t.2.2).sink =
      ⟨loc, ["A", "B", "C", "D"].getD t.2.1 "" ++ toString t.1 ++ "_SLICE"⟩ := by
  obtain ⟨h1, h2, h3, _⟩ := crossbar_triples_range t ht
  refine ⟨(lutperm_unpack_pack t.1 h1 t.2.1 h2 t.2.2 h3).1, ?_, ?_⟩
  · rw [← abcd_letters t.2.2 h3]
    rfl
  · rw [← abcd_letters t.2.1 h2]
    rfl

/-- C17: every arc that `get_routing_graph_ecp5` inserts comes from a tile of
type `PLC2` of the chip and from a slice `z` in `0..3` of it, and with
`(k, i, j)` unpacked from its `lutperm_flags`: its source is the `j`-th letter
of `ABCD` followed by `k`, its sink the `i`-th letter followed by `k` and
`_SLICE`, both at `Location(x = col, y = row)` of the tile, its id is source,
`->`, sink, its tile type is the type of the tile, and `k` is `2z` or `2z+1`.
Every `k` in `0..7` occurs for the slice `k / 2` and for no other slice. -/
theorem crossbar_arc_flags {R G : Type} (c : Chip R G) (incl : Bool) :
    (∀ a ∈ added_arcs (c.get_routing_graph_ecp5 incl),
      ∃ e ∈ c.tiles.entries, ∃ z < 4,
        e.2.info.type = "PLC2" ∧
        a ∈ added_arcs (lutperm_pips ⟨e.2.info.col, e.2.info.row⟩ e.2.info.type z) ∧
        a.source = ⟨⟨e.2.info.col, e.2.info.row⟩,
          ["A", "B", "C", "D"].getD (lutperm_unpack a.lutperm_flags).2.2 "" ++
            toString (lutperm_unpack a.lutperm_flags).1⟩ ∧
        a.sink = ⟨⟨e.2.info.col, e.2.info.row⟩,
          ["A", "B", "C", "D"].getD (lutperm_unpack a.lutperm_flags).2.1 "" ++
            toString (lutperm_unpack a.lutperm_flags).1 ++ "_SLICE"⟩ ∧
        a.id = a.source.id ++ "->" ++ a.sink.id ∧
        a.tiletype = e.2.info.type ∧
        ((lutperm_unpack a.lutperm_flags).1 = 2 * z ∨
          (lutperm_unpack a.lutperm_flags).1 = 2 * z + 1)) ∧
    (∀ (loc : Location) (type : String), ∀ k < 8, ∀ z < 4,
      ((∃ a ∈ added_arcs (lutperm_pips loc type z), (lutperm_unpack a.lutperm_flags).1 = k) ↔
        z = k / 2)) := by
  constructor
  · intro a ha
    unfold Chip.get_routing_graph_ecp5 at ha
    rw [added_arcs_flatMap] at ha
    obtain ⟨e, he, hae⟩ := List.mem_flatMap.mp ha
    rw [added_arcs_tile, added_arcs_slice] at hae
    by_cases h : e.2.info.type = "PLC2" ∧ incl = true
    · rw [if_pos h] at hae
      obtain ⟨z, hz, haz⟩ := List.mem_flatMap.mp hae
      have hz4 : z < 4 := by
        have := List.mem_range'.mp hz
        omega
      refine ⟨e, he, z, hz4, h.1, haz, ?_⟩
      rw [added_arcs_lutperm_pips _ _ z hz4] at haz
      obtain ⟨t, ht, rfl⟩ := List.mem_map.mp haz
      obtain ⟨htmem, htz⟩ := List.mem_filter.mp ht
      obtain ⟨hu, hsrc, hsnk⟩ := lutperm_arc_fields ⟨e.2.info.col, e.2.info.row⟩
        e.2.info.type t htmem
      rw [hu]
      refine ⟨hsrc, hsnk, rfl, rfl, ?_⟩
      have hdiv : t.1 / 2 = z := by simpa using htz
      omega
    · rw [if_neg h] at hae
      exact absurd hae (List.not_mem_nil a)
  · intro loc type k hk z hz
    rw [added_arcs_lutperm_pips loc type z hz, ← crossbar_triples_slices k hk z hz]
    constructor
    · rintro ⟨a, ha, hak⟩
      obtain ⟨t, ht, rfl⟩ := List.mem_map.mp ha
      have htmem := (List.mem_filter.mp ht).1
      rw [(lutperm_arc_fields loc type t htmem).1] at hak
      exact ⟨t, ht, hak⟩
    · rintro ⟨t, ht, htk⟩
      have htmem := (List.mem_filter.mp ht).1
      refine ⟨_, List.mem_map.mpr ⟨t, ht, rfl⟩, ?_⟩
      rw [(lutperm_arc_fields loc type t htmem).1]
      exact htk

/-- C17 on the sample chip: the pseudo-pip of LUT 5 from input `B` to input
`C` at the first logic tile is among the arcs of the graph, so the arcs of the
statement exist. -/
theorem crossbar_arc_flags_witness :
    lutperm_arc ⟨3, 2⟩ "PLC2" 5 2 1 ∈
      added_arcs ((sample_chip 5 9).get_routing_graph_ecp5 true) ∧
    ∃ e ∈ (sample_chip 5 9).tiles.entries, ∃ z < 4,
      e.2.info.type = "PLC2" ∧
      lutperm_arc ⟨3, 2⟩ "PLC2" 5 2 1 ∈
        added_arcs (lutperm_pips ⟨e.2.info.col, e.2.info.row⟩ e.2.info.type z) ∧
      (lutperm_arc ⟨3, 2⟩ "PLC2" 5 2 1).tiletype = e.2.info.type := by
  have hmem : lutperm_arc ⟨3, 2⟩ "PLC2" 5 2 1 ∈
      added_arcs ((sample_chip 5 9).get_routing_graph_ecp5 true) := by
    decide
  obtain ⟨e, he, z, hz, hty, hin, _, _, _, htt, _⟩ :=
    (crossbar_arc_flags (sample_chip 5 9) true).1 _ hmem
  exact ⟨hmem, e, he, z, hz, hty, hin, htt⟩

/-! ## PIO primitives of the MachXO2 -/

theorem filter_ite_nil {α : Type} (p : α → Bool) (c : Prop) [Decidable c] (l : List α) :
    (if c then l else []).filter p = if c then l.filter p else [] := by
  split <;> rfl

theorem pio_calls_guarded (info : ChipInfo) (tile : TileInfo)
    (hguard : strContains tile.type "DUMMY" = true ∨ strContains tile.type "CIB" = true) :
    pio_calls (machxo2_tile_ops info tile) =
      if strContains tile.type "PIC_LS0" = true ∨ strContains tile.type "PIC_RS0" = true then
        [.machxo2 (.add_pio tile.col tile.row 0), .machxo2 (.add_pio tile.col tile.row 1)]
      else [] := by
  have hfirst : (!strContains tile.type "DUMMY" && !strContains tile.type "CIB" &&
      (strContains tile.type "PIC_L0" || strContains tile.type "PIC_T" ||
       strContains tile.type "PIC_R0" || strContains tile.type "PIC_B")) = false := by
    rcases hguard with h | h <;> simp [h]
  unfold pio_calls machxo2_tile_ops
  dsimp only
  rw [hfirst]
  simp only [TileInfo.get_row_col, List.filter_append, filter_ite_nil, for_range,
    List.filter_flatMap, Bool.or_eq_true]
  simp [GraphOp.is_pio, List.range', flatMap_nil_const]


/-- C18 fails in the code: a MachXO2 tile whose type holds `DUMMY` together
with `PIC_LS0`, or `CIB` together with `PIC_RS0`, gets the two `add_pio` calls
of the single-I/O-pair rule, which has no test for `DUMMY` and `CIB`. For a
type that holds `DUMMY` or `CIB` the rule of four PIOs never fires, so these
two calls, made when the type holds `PIC_LS0` or `PIC_RS0`, are the only
`add_pio` calls there can be. -/
theorem machxo2_dummy_tile_pio :
    strContains tile_ls0_dummy.type "DUMMY" = true ∧
    pio_calls (machxo2_tile_ops machxo2_info tile_ls0_dummy) =
      [.machxo2 (.add_pio 0 5 0), .machxo2 (.add_pio 0 5 1)] ∧
    strContains tile_cib_rs0.type "CIB" = true ∧
    pio_calls (machxo2_tile_ops machxo2_info tile_cib_rs0) =
      [.machxo2 (.add_pio 22 5 0), .machxo2 (.add_pio 22 5 1)] ∧
    ∀ (info : ChipInfo) (tile : TileInfo),
      strContains tile.type "DUMMY" = true ∨ strContains tile.type "CIB" = true →
      pio_calls (machxo2_tile_ops info tile) =
        if strContains tile.type "PIC_LS0" = true ∨ strContains tile.type "PIC_RS0" = true then
          [.machxo2 (.add_pio tile.col tile.row 0), .machxo2 (.add_pio tile.col tile.row 1)]
        else [] :=
  ⟨by decide, by decide, by decide, by decide, pio_calls_guarded⟩

/-! ## Order of the tiles -/

theorem added_arcs_eq_filterMap (l : List GraphOp) :
    added_arcs l = l.filterMap (fun op => match op with
      | .add_arc _ arc => some arc
      | _ => none) := by
  induction l with
  | nil => rfl
  | cons op tl ih =>
    cases op <;> simp [added_arcs, ih]

theorem added_arcs_perm (l₁ l₂ : List GraphOp) (h : l₁.Perm l₂) :
    (added_arcs l₁).Perm (added_arcs l₂) := by
  rw [added_arcs_eq_filterMap, added_arcs_eq_filterMap]
  exact h.filterMap _

theorem filter_ite {α : Type} (p : α → Bool) (c : Prop) [Decidable c] (l₁ l₂ : List α) :
    (if c then l₁ else l₂).filter p = if c then l₁.filter p else l₂.filter p := by
  split <;> rfl

theorem routing_calls_ecp5_tile (info : ChipInfo) (incl : Bool) (tile : TileInfo) :
    routing_calls (ecp5_tile_ops info incl tile) =
      [.add_routing ⟨info.family, info.name, tile.type⟩ tile] := by
  simp [ecp5_tile_ops, ecp5_slice_bels, lutperm_pips, ecp5_pio_bels, ecp5_dcc_bels,
    ecp5_ram_bels, ecp5_dsp_bels, ecp5_pll_bels, ecp5_dcu_bels, ecp5_config_bels,
    ecp5_eclk_l, ecp5_eclk_r, routing_calls, List.filter_append, filter_ite, for_range,
    List.filter_flatMap, GraphOp.is_routing, flatMap_nil_const]

theorem routing_calls_machxo2_tile (info : ChipInfo) (tile : TileInfo) :
    routing_calls (machxo2_tile_ops info tile) =
      [.add_routing ⟨info.family, info.name, tile.type⟩ tile] := by
  simp [machxo2_tile_ops, routing_calls, List.filter_append, filter_ite, for_range,
    List.filter_flatMap, GraphOp.is_routing, flatMap_nil_const]

theorem flatMap_singleton_map {α β : Type} (l : List α) (f : α → β) :
    l.flatMap (fun a => [f a]) = l.map f := by
  induction l with
  | nil => rfl
  | cons a tl ih => simp [List.flatMap_cons, ih]

theorem calls_perm (l₁ l₂ : List GraphOp) (h : l₁.Perm l₂) :
    (routing_calls l₁).Perm (routing_calls l₂) ∧
    (builder_calls l₁).Perm (builder_calls l₂) ∧
    (added_arcs l₁).Perm (added_arcs l₂) :=
  ⟨h.filter _, h.filter _, added_arcs_perm l₁ l₂ h⟩

/-- C19: for either family the graph is the loop body run once over each
entry of `tiles`, so the routing imports among its calls are one per tile,
the import of that tile. The calls of the body after the import are a function
of the tile type, row and column (and the flag) alone. Running the body over
two orderings of the same tiles gives the same calls up to order, hence the
same imports, the same builder calls and the same arcs up to order. -/
theorem graph_order_independent {R G : Type} (c : Chip R G) (incl : Bool) :
    (c.get_routing_graph_ecp5 incl =
        c.tiles.entries.flatMap (fun e => ecp5_tile_ops c.info incl e.2.info) ∧
      routing_calls (c.get_routing_graph_ecp5 incl) = c.tiles.entries.map
        (fun e => .add_routing ⟨c.info.family, c.info.name, e.2.info.type⟩ e.2.info)) ∧
    (c.get_routing_graph_machxo2 =
        c.tiles.entries.flatMap (fun e => machxo2_tile_ops c.info e.2.info) ∧
      routing_calls c.get_routing_graph_machxo2 = c.tiles.entries.map
        (fun e => .add_routing ⟨c.info.family, c.info.name, e.2.info.type⟩ e.2.info)) ∧
    (∃ f : Bool → String → Int → Int → List GraphOp,
      ∀ (info : ChipInfo) (flag : Bool) (tile : TileInfo),
        ecp5_tile_ops info flag tile =
          .add_routing ⟨info.family, info.name, tile.type⟩ tile ::
            f flag tile.type tile.row tile.col) ∧
    (∃ f : String → Int → Int → List GraphOp,
      ∀ (info : ChipInfo) (tile : TileInfo),
        machxo2_tile_ops info tile =
          .add_routing ⟨info.family, info.name, tile.type⟩ tile ::
            f tile.type tile.row tile.col) ∧
    (∀ l₁ l₂ : List (String × Tile R), l₁.Perm l₂ →
      (l₁.flatMap (fun e => ecp5_tile_ops c.info incl e.2.info)).Perm
        (l₂.flatMap (fun e => ecp5_tile_ops c.info incl e.2.info)) ∧
      (routing_calls (l₁.flatMap (fun e => ecp5_tile_ops c.info incl e.2.info))).Perm
        (routing_calls (l₂.flatMap (fun e => ecp5_tile_ops c.info incl e.2.info))) ∧
      (builder_calls (l₁.flatMap (fun e => ecp5_tile_ops c.info incl e.2.info))).Perm
        (builder_calls (l₂.flatMap (fun e => ecp5_tile_ops c.info incl e.2.info))) ∧
      (added_arcs (l₁.flatMap (fun e => ecp5_tile_ops c.info incl e.2.info))).Perm
        (added_arcs (l₂.flatMap (fun e => ecp5_tile_ops c.info incl e.2.info)))) ∧
    (∀ l₁ l₂ : List (String × Tile R), l₁.Perm l₂ →
      (l₁.flatMap (fun e => machxo2_tile_ops c.info e.2.info)).Perm
        (l₂.flatMap (fun e => machxo2_tile_ops c.info e.2.info)) ∧
      (routing_calls (l₁.flatMap (fun e => machxo2_tile_ops c.info e.2.info))).Perm
        (routing_calls (l₂.flatMap (fun e => machxo2_tile_ops c.info e.2.info))) ∧
      (builder_calls (l₁.flatMap (fun e => machxo2_tile_ops c.info e.2.info))).Perm
        (builder_calls (l₂.flatMap (fun e => machxo2_tile_ops c.info e.2.info))) ∧
      (added_arcs (l₁.flatMap (fun e => machxo2_tile_ops c.info e.2.info))).Perm
        (added_arcs (l₂.flatMap (fun e => machxo2_tile_ops c.info e.2.info)))) := by
  refine ⟨⟨rfl, ?_⟩, ⟨rfl, ?_⟩, ?_, ?_, fun l₁ l₂ h => ?_, fun l₁ l₂ h => ?_⟩
  · unfold Chip.get_routing_graph_ecp5 routing_calls
    rw [List.filter_flatMap]
    have h : ∀ e : String × Tile R,
        List.filter GraphOp.is_routing (ecp5_tile_ops c.info incl e.2.info) =
          [.add_routing ⟨c.info.family, c.info.name, e.2.info.type⟩ e.2.info] :=
      fun e => routing_calls_ecp5_tile c.info incl e.2.info
    simp only [h]
    exact flatMap_singleton_map _ _
  · unfold Chip.get_routing_graph_machxo2 routing_calls
    rw [List.filter_flatMap]
    have h : ∀ e : String × Tile R,
        List.filter GraphOp.is_routing (machxo2_tile_ops c.info e.2.info) =
          [.add_routing ⟨c.info.family, c.info.name, e.2.info.type⟩ e.2.info] :=
      fun e => routing_calls_machxo2_tile c.info e.2.info
    simp only [h]
    exact flatMap_singleton_map _ _
  · exact ⟨fun flag type row col => (ecp5_rules flag).flatMap
      (fun r => if r.applies type then r.calls col row else []),
      fun info flag tile => ecp5_tile_ops_rules info flag tile⟩
  · exact ⟨fun type row col =>
      (machxo2_tile_ops ⟨"", "", 0, 0, 0, 0⟩ ⟨"", type, row, col⟩).tail,
      fun info tile => rfl⟩
  · have hp := List.Perm.flatMap_right (fun e : String × Tile R =>
      ecp5_tile_ops c.info incl e.2.info) h
    exact ⟨hp, calls_perm _ _ hp⟩
  · have hp := List.Perm.flatMap_right (fun e : String × Tile R =>
      machxo2_tile_ops c.info e.2.info) h
    exact ⟨hp, calls_perm _ _ hp⟩

/-- C19 on the two sample tiles: the body run over them in either order gives
the same calls up to order. -/
theorem graph_order_independent_witness :
    ([("R2C4:PLC2", (⟨tile_r2c4, 9⟩ : Tile Nat)), ("R2C3:PLC2", ⟨tile_r2c3, 5⟩)].flatMap
        (fun e => ecp5_tile_ops sample_info true e.2.info)).Perm
      ((sample_chip 5 9).get_routing_graph_ecp5 true) :=
  ((graph_order_independent (sample_chip 5 9) true).2.2.2.2.1 _ _
    (List.Perm.swap _ _ [])).1

/-! ## Scope of the feature flag -/

theorem without_arcs_of_no_arcs (l : List GraphOp) (h : added_arcs l = []) :
    without_arcs l = l := by
  induction l with
  | nil => rfl
  | cons op tl ih =>
    cases op with
    | add_arc loc arc => simp [added_arcs] at h
    | add_routing loc tile =>
      have := ih (by simpa [added_arcs] using h)
      unfold without_arcs at this ⊢
      rw [List.filter_cons_of_pos (by rfl), this]
    | ecp5 call =>
      have := ih (by simpa [added_arcs] using h)
      unfold without_arcs at this ⊢
      rw [List.filter_cons_of_pos (by rfl), this]
    | machxo2 call =>
      have := ih (by simpa [added_arcs] using h)
      unfold without_arcs at this ⊢
      rw [List.filter_cons_of_pos (by rfl), this]

theorem without_arcs_append (l₁ l₂ : List GraphOp) :
    without_arcs (l₁ ++ l₂) = without_arcs l₁ ++ without_arcs l₂ :=
  List.filter_append _ _

theorem without_arcs_lutperm_pips (loc : Location) (type : String) (z : Nat) :
    without_arcs (lutperm_pips loc type z) = [] := by
  unfold without_arcs lutperm_pips for_range
  simp only [List.filter_flatMap]
  apply List.flatMap_eq_nil_iff.mpr
  intro k _
  apply List.flatMap_eq_nil_iff.mpr
  intro i _
  apply List.flatMap_eq_nil_iff.mpr
  intro j _
  split <;> rfl

theorem without_arcs_slice (type : String) (x y : Int) :
    without_arcs (ecp5_slice_bels true type x y) = ecp5_slice_bels false type x y := by
  unfold ecp5_slice_bels
  by_cases h : type = "PLC2"
  · rw [if_pos h, if_pos h]
    unfold without_arcs for_range
    rw [List.filter_flatMap]
    congr 1
    funext z
    have := without_arcs_lutperm_pips ⟨x, y⟩ type z
    unfold without_arcs at this
    rw [List.filter_append, if_pos rfl, this]
    rfl
  · rw [if_neg h, if_neg h]
    rfl

theorem without_arcs_tile (info : ChipInfo) (tile : TileInfo) :
    without_arcs (ecp5_tile_ops info true tile) = ecp5_tile_ops info false tile := by
  unfold ecp5_tile_ops
  simp only [without_arcs_append, without_arcs_slice,
    without_arcs_of_no_arcs _ (added_arcs_pio _ _ _),
    without_arcs_of_no_arcs _ (added_arcs_dcc _ _ _),
    without_arcs_of_no_arcs _ (added_arcs_ram _ _ _),
    without_arcs_of_no_arcs _ (added_arcs_dsp _ _ _),
    without_arcs_of_no_arcs _ (added_arcs_pll _ _ _),
    without_arcs_of_no_arcs _ (added_arcs_dcu _ _ _),
    without_arcs_of_no_arcs _ (added_arcs_config _ _ _)]
  rfl

theorem added_arcs_machxo2_tile (info : ChipInfo) (tile : TileInfo) :
    added_arcs (machxo2_tile_ops info tile) = [] := by
  simp [machxo2_tile_ops, added_arcs_append, added_arcs_ite, added_arcs_for_range, added_arcs,
    flatMap_nil_const]

theorem calls_without_arcs (l : List GraphOp) :
    routing_calls (without_arcs l) = routing_calls l ∧
    builder_calls (without_arcs l) = builder_calls l := by
  unfold routing_calls builder_calls without_arcs
  rw [List.filter_filter, List.filter_filter]
  constructor
  · apply List.filter_congr
    intro op _
    cases op <;> rfl
  · apply List.filter_congr
    intro op _
    cases op <;> rfl

/-- C20: on a chip of family MachXO2 `get_routing_graph(true)` and
`get_routing_graph(false)` return the same calls, none of them an `add_arc`.
On a chip of family ECP5 the run without the flag is the run with the flag
with its `add_arc` calls left out: both have the same routing imports and the
same builder calls in the same order, the run without the flag has no arc, and
every arc of the run with the flag is an arc of the loop body for a tile of
type `PLC2`. -/
theorem lutperm_flag_scope {R G : Type} (c : Chip R G) :
    (c.info.family = "MachXO2" →
      ∃ g, c.get_routing_graph true = .ok g ∧ c.get_routing_graph false = .ok g ∧
        added_arcs g = []) ∧
    (c.info.family = "ECP5" →
      ∃ g₁ g₀, c.get_routing_graph true = .ok g₁ ∧ c.get_routing_graph false = .ok g₀ ∧
        without_arcs g₁ = g₀ ∧
        added_arcs g₀ = [] ∧
        routing_calls g₁ = routing_calls g₀ ∧
        builder_calls g₁ = builder_calls g₀ ∧
        ∀ a ∈ added_arcs g₁, ∃ e ∈ c.tiles.entries, e.2.info.type = "PLC2" ∧
          a ∈ added_arcs (ecp5_tile_ops c.info true e.2.info)) := by
  constructor
  · intro hfam
    have hne : ¬ c.info.family = "ECP5" := by
      rw [hfam]
      decide
    refine ⟨c.get_routing_graph_machxo2, ?_, ?_, ?_⟩
    · unfold Chip.get_routing_graph
      rw [if_neg hne, if_pos hfam]
      rfl
    · unfold Chip.get_routing_graph
      rw [if_neg hne, if_pos hfam]
      rfl
    · unfold Chip.get_routing_graph_machxo2
      rw [added_arcs_flatMap]
      simp only [added_arcs_machxo2_tile]
      exact flatMap_nil_const _
  · intro hfam
    have hwo : without_arcs (c.get_routing_graph_ecp5 true) =
        c.get_routing_graph_ecp5 false := by
      unfold Chip.get_routing_graph_ecp5 without_arcs
      rw [List.filter_flatMap]
      have h : ∀ e : String × Tile R,
          List.filter (fun op => !op.is_arc) (ecp5_tile_ops c.info true e.2.info) =
            ecp5_tile_ops c.info false e.2.info :=
        fun e => without_arcs_tile c.info e.2.info
      simp only [h]
    refine ⟨c.get_routing_graph_ecp5 true, c.get_routing_graph_ecp5 false, ?_, ?_, hwo,
      added_arcs_graph_off c, ?_, ?_, ?_⟩
    · unfold Chip.get_routing_graph
      rw [if_pos hfam]
      rfl
    · unfold Chip.get_routing_graph
      rw [if_pos hfam]
      rfl
    · rw [← hwo]
      exact (calls_without_arcs _).1.symm
    · rw [← hwo]
      exact (calls_without_arcs _).2.symm
    · intro a ha
      unfold Chip.get_routing_graph_ecp5 at ha
      rw [added_arcs_flatMap] at ha
      obtain ⟨e, he, hae⟩ := List.mem_flatMap.mp ha
      refine ⟨e, he, ?_, hae⟩
      rw [added_arcs_tile, added_arcs_slice] at hae
      by_cases h : e.2.info.type = "PLC2" ∧ true = true
      · exact h.1
      · rw [if_neg h] at hae
        exact absurd hae (List.not_mem_nil a)

/-- C20 on the sample chips: the MachXO2 chip gives the same calls for either
value of the flag, the ECP5 chip the same calls apart from the arcs. -/
theorem lutperm_flag_scope_witness :
    (∃ g, machxo2_chip.get_routing_graph true = .ok g ∧
      machxo2_chip.get_routing_graph false = .ok g ∧ added_arcs g = []) ∧
    (∃ g₁ g₀, (sample_chip 5 9).get_routing_graph true = .ok g₁ ∧
      (sample_chip 5 9).get_routing_graph false = .ok g₀ ∧ without_arcs g₁ = g₀) := by
  refine ⟨(lutperm_flag_scope machxo2_chip).1 rfl, ?_⟩
  obtain ⟨g₁, g₀, h1, h0, hwo, _⟩ := (lutperm_flag_scope (sample_chip 5 9)).2 rfl
  exact ⟨g₁, g₀, h1, h0, hwo⟩

end Trellis
